import Mathlib

/-!
Verification development for the CHIP-8 / Super-CHIP interpreter core of
`cats_chip8_emu` (class `CPU` in the single source file).  The CPU state is
embedded shallowly: Python lists and bytearrays become `Nat`-indexed
functions, the machine integers become `Nat` (with explicit masking where the
source masks), and the Python stack pointer becomes `Int` because the source
lets it go negative.  Python `IndexError` / `ValueError` raised by bytearray
and list accesses are modelled by `Except Machine Machine`: an `Except.error`
carries the partially mutated state at the moment the exception escapes, just
as the exception propagates out of `step()` leaving the mutations made so far.
The PRNG draw used by opcode `CXNN` is passed to `step` as an explicit
argument `rnd` (the source calls the global `random.randint(0, 255)`).
-/

namespace Chip8

def MEMORY_SIZE : Nat := 4096
def PROGRAM_START : Nat := 0x200
def CHIP8_WIDTH : Nat := 64
def CHIP8_HEIGHT : Nat := 32
def SCHIP_WIDTH : Nat := 128
def SCHIP_HEIGHT : Nat := 64

def FONTSET : List Nat := [
  0xF0,0x90,0x90,0x90,0xF0, 0x20,0x60,0x20,0x20,0x70,
  0xF0,0x10,0xF0,0x80,0xF0, 0xF0,0x10,0xF0,0x10,0xF0,
  0x90,0x90,0xF0,0x10,0x10, 0xF0,0x80,0xF0,0x10,0xF0,
  0xF0,0x80,0xF0,0x90,0xF0, 0xF0,0x10,0x20,0x40,0x40,
  0xF0,0x90,0xF0,0x90,0xF0, 0xF0,0x90,0xF0,0x10,0xF0,
  0xF0,0x90,0xF0,0x90,0x90, 0xE0,0x90,0xE0,0x90,0xE0,
  0xF0,0x80,0x80,0x80,0xF0, 0xE0,0x90,0x90,0x90,0xE0,
  0xF0,0x80,0xF0,0x80,0xF0, 0xF0,0x80,0xF0,0x80,0x80]

def SCHIP_FONT : List Nat := [
  0x3C,0x7E,0xE7,0xC3,0xC3,0xC3,0xC3,0xE7,0x7E,0x3C,
  0x18,0x38,0x58,0x18,0x18,0x18,0x18,0x18,0x18,0x3C,
  0x3E,0x7F,0xC3,0x06,0x0C,0x18,0x30,0x60,0xFF,0xFF,
  0x3C,0x7E,0xC3,0x03,0x0E,0x0E,0x03,0xC3,0x7E,0x3C,
  0x06,0x0E,0x1E,0x36,0x66,0xC6,0xFF,0xFF,0x06,0x06,
  0xFF,0xFF,0xC0,0xC0,0xFC,0xFE,0x03,0xC3,0x7E,0x3C,
  0x3E,0x7C,0xC0,0xC0,0xFC,0xFE,0xC3,0xC3,0x7E,0x3C,
  0xFF,0xFF,0x03,0x06,0x0C,0x18,0x30,0x60,0x60,0x60,
  0x3C,0x7E,0xC3,0xC3,0x7E,0x7E,0xC3,0xC3,0x7E,0x3C,
  0x3C,0x7E,0xC3,0xC3,0x7F,0x3F,0x03,0x03,0x3E,0x7C]

/-- Pointwise update of a `Nat`-indexed function, modelling `lst[i] = v`. -/
def upd (f : Nat → Nat) (i v : Nat) : Nat → Nat := fun j => if j = i then v else f j

/-- The mutable state of the Python `CPU` object.  `mem` models the 4096-byte
bytearray, `V`/`stack`/`keys`/`rpl` the fixed-length Python lists, `gfx` and
`gfx_hi` the two framebuffer planes (row, column order, values 0/1). -/
structure Machine where
  mem : Nat → Nat
  V : Nat → Nat
  I : Nat
  PC : Nat
  stack : Nat → Nat
  SP : Int
  DT : Nat
  ST : Nat
  hires : Bool
  gfx : Nat → Nat → Nat
  gfx_hi : Nat → Nat → Nat
  keys : Nat → Nat
  wait_key : Bool
  wait_reg : Nat
  draw_flag : Bool
  halted : Bool
  loaded : Bool
  rom_name : String
  rom_path : String
  cycles : Nat
  rpl : Nat → Nat

/-- The deep-copied dictionary returned by `CPU.state()` (exactly the twelve
snapshotted fields). -/
structure Snap where
  mem : Nat → Nat
  V : Nat → Nat
  I : Nat
  PC : Nat
  stack : Nat → Nat
  SP : Int
  DT : Nat
  ST : Nat
  hires : Bool
  gfx : Nat → Nat → Nat
  gfx_hi : Nat → Nat → Nat
  cycles : Nat

/-- Reading `mem[i]` from the 4096-byte bytearray: `none` models `IndexError`.
(All memory indices produced by the interpreter are nonnegative, so only the
upper bound can fail.) -/
def memGet (s : Machine) (i : Nat) : Option Nat :=
  if i < MEMORY_SIZE then some (s.mem i) else none

/-- Writing `mem[i] = v` to the bytearray: fails (`IndexError`/`ValueError`)
when the index is out of range or the value is not a byte. -/
def bytearraySet (m : Nat → Nat) (i v : Nat) : Option (Nat → Nat) :=
  if i < MEMORY_SIZE ∧ v < 256 then some (upd m i v) else none

/-- Effective index for a Python access `stack[i]` on the 16-entry list,
valid for `-16 ≤ i < 16` (negative indices count from the end). -/
def stackIdx (i : Int) : Nat := (i % 16).toNat

/-- Opcode decode helpers, mirroring
`nnn, nn, n = op & 0xFFF, op & 0xFF, op & 0xF` and
`x, y, hi = (op >> 8) & 0xF, (op >> 4) & 0xF, (op >> 12) & 0xF`. -/
def opNNN (op : Nat) : Nat := op &&& 0xFFF
def opNN (op : Nat) : Nat := op &&& 0xFF
def opN (op : Nat) : Nat := op &&& 0xF
def opX (op : Nat) : Nat := (op >>> 8) &&& 0xF
def opY (op : Nat) : Nat := (op >>> 4) &&& 0xF
def opHi (op : Nat) : Nat := (op >>> 12) &&& 0xF

/-- Python `(a - b) & 0xFF` where the subtraction may go negative:
equal to the mathematical value modulo 256. -/
def subByte (a b : Nat) : Nat := (((a : Int) - (b : Int)) % 256).toNat

/-- Clearing every pixel of the active `h × w` plane (opcode 00E0). -/
def clearPlane (h w : Nat) (g : Nat → Nat → Nat) : Nat → Nat → Nat :=
  fun r c => if r < h ∧ c < w then 0 else g r c

/-- Scroll the `h × w` plane down by `nScroll` rows (opcode 00CN). -/
def scrollDown (nScroll h w : Nat) (g : Nat → Nat → Nat) : Nat → Nat → Nat :=
  fun r c =>
    if r < h then (if r < nScroll then 0 else g (r - nScroll) c) else g r c

/-- Scroll the `h × w` plane right by 4 columns (opcode 00FB). -/
def scrollRight (h w : Nat) (g : Nat → Nat → Nat) : Nat → Nat → Nat :=
  fun r c =>
    if r < h then (if c < 4 then 0 else if c < w then g r (c - 4) else g r c)
    else g r c

/-- Scroll the `h × w` plane left by 4 columns (opcode 00FC). -/
def scrollLeft (h w : Nat) (g : Nat → Nat → Nat) : Nat → Nat → Nat :=
  fun r c =>
    if r < h then (if c < w - 4 then g r (c + 4) else if c < w then 0 else g r c)
    else g r c

/-- Inner column loop of `_draw` for one 8-pixel sprite row: XOR-toggles the
set bits into the plane and accumulates the collision flag. -/
def drawCols (spr py vx w : Nat) (col : Nat) (g : Nat → Nat → Nat) (vf : Nat) :
    (Nat → Nat → Nat) × Nat :=
  if h : col < 8 then
    let px := (vx + col) % w
    if (spr >>> (7 - col)) &&& 1 = 1 then
      drawCols spr py vx w (col + 1)
        (fun r c => if r = py ∧ c = px then g r c ^^^ 1 else g r c)
        (if g py px ≠ 0 then 1 else vf)
    else
      drawCols spr py vx w (col + 1) g vf
  else (g, vf)
termination_by 8 - col

/-- Row loop of `_draw`: reads sprite byte `mem[(I + row) & 0xFFF]` per row. -/
def drawRows (mem : Nat → Nat) (memI vx vy w h n : Nat) (row : Nat)
    (g : Nat → Nat → Nat) (vf : Nat) : (Nat → Nat → Nat) × Nat :=
  if h2 : row < n then
    let py := (vy + row) % h
    let spr := mem ((memI + row) &&& 0xFFF)
    let p := drawCols spr py vx w 0 g vf
    drawRows mem memI vx vy w h n (row + 1) p.1 p.2
  else (g, vf)
termination_by n - row

/-- Inner column loop of `_draw16` (16-bit sprite word, 128-wide plane). -/
def draw16Cols (word py vx : Nat) (col : Nat) (g : Nat → Nat → Nat) (vf : Nat) :
    (Nat → Nat → Nat) × Nat :=
  if h : col < 16 then
    let px := (vx + col) % SCHIP_WIDTH
    if (word >>> (15 - col)) &&& 1 = 1 then
      draw16Cols word py vx (col + 1)
        (fun r c => if r = py ∧ c = px then g r c ^^^ 1 else g r c)
        (if g py px ≠ 0 then 1 else vf)
    else
      draw16Cols word py vx (col + 1) g vf
  else (g, vf)
termination_by 16 - col

/-- Row loop of `_draw16`: each row reads a big-endian 16-bit word from
`mem[(I + row*2) & 0xFFF]` and `mem[(I + row*2 + 1) & 0xFFF]`. -/
def draw16Rows (mem : Nat → Nat) (memI vx vy : Nat) (row : Nat)
    (g : Nat → Nat → Nat) (vf : Nat) : (Nat → Nat → Nat) × Nat :=
  if h : row < 16 then
    let py := (vy + row) % SCHIP_HEIGHT
    let word := (mem ((memI + row * 2) &&& 0xFFF) <<< 8) |||
      mem ((memI + row * 2 + 1) &&& 0xFFF)
    let p := draw16Cols word py vx 0 g vf
    draw16Rows mem memI vx vy (row + 1) p.1 p.2
  else (g, vf)
termination_by 16 - row

/-- The `FX55` store loop `for i in range(x+1): mem[(I+i) & 0xFFF] = V[i]`,
threading the bytearray and reporting the partially written memory on error. -/
def storeMemLoop (V : Nat → Nat) (memI x : Nat) (i : Nat) (m : Nat → Nat) :
    Except (Nat → Nat) (Nat → Nat) :=
  if h : i < x + 1 then
    match bytearraySet m ((memI + i) &&& 0xFFF) (V i) with
    | none => .error m
    | some m2 => storeMemLoop V memI x (i + 1) m2
  else .ok m
termination_by x + 1 - i

/-- The `FX65` load loop `for i in range(x+1): V[i] = mem[(I+i) & 0xFFF]`
(the masked reads cannot fail, and the loop body never reads `V`). -/
def loadV (mem : Nat → Nat) (memI x : Nat) (V : Nat → Nat) : Nat → Nat :=
  fun j => if j < x + 1 then mem ((memI + j) &&& 0xFFF) else V j

/-- `FX75`: `for i in range(min(x+1, 8)): rpl[i] = V[i]`. -/
def rplStore (V : Nat → Nat) (x : Nat) (rpl : Nat → Nat) : Nat → Nat :=
  fun j => if j < min (x + 1) 8 then V j else rpl j

/-- `FX85`: `for i in range(min(x+1, 8)): V[i] = rpl[i]`. -/
def rplLoad (rpl : Nat → Nat) (x : Nat) (V : Nat → Nat) : Nat → Nat :=
  fun j => if j < min (x + 1) 8 then rpl j else V j

namespace CPU

/-- `CPU._alu(x, y, n)`: returns the new register file.  Writes are sequenced
exactly as the source sequences them: the result goes to `V[x]` first and the
flag to `V[0xF]` last, so the outer `upd` on `0xF` wins when `x = 0xF`. -/
def alu (x y n : Nat) (V : Nat → Nat) : Nat → Nat :=
  if n = 0 then upd V x (V y)
  else if n = 1 then upd (upd V x (V x ||| V y)) 0xF 0
  else if n = 2 then upd (upd V x (V x &&& V y)) 0xF 0
  else if n = 3 then upd (upd V x (V x ^^^ V y)) 0xF 0
  else if n = 4 then
    upd (upd V x ((V x + V y) &&& 0xFF)) 0xF (if V x + V y > 255 then 1 else 0)
  else if n = 5 then
    upd (upd V x (subByte (V x) (V y))) 0xF (if V x ≥ V y then 1 else 0)
  else if n = 6 then
    upd (upd V x (V x >>> 1)) 0xF (V x &&& 1)
  else if n = 7 then
    upd (upd V x (subByte (V y) (V x))) 0xF (if V y ≥ V x then 1 else 0)
  else if n = 0xE then
    upd (upd V x ((V x <<< 1) &&& 0xFF)) 0xF ((V x >>> 7) &&& 1)
  else V

/-- `CPU._draw(x, y, n)`: XOR sprite drawing on the active plane; the initial
coordinates wrap modulo the plane size and `V[0xF]` receives the collision
flag (it is zeroed first, so the final value is the accumulated flag). -/
def draw (x y n : Nat) (s : Machine) : Machine :=
  let vx := s.V x
  let vy := s.V y
  if n = 0 ∧ s.hires then
    let p := draw16Rows s.mem s.I (vx % SCHIP_WIDTH) (vy % SCHIP_HEIGHT) 0 s.gfx_hi 0
    { s with gfx_hi := p.1, V := upd s.V 0xF p.2, draw_flag := true }
  else if s.hires then
    let p := drawRows s.mem s.I (vx % SCHIP_WIDTH) (vy % SCHIP_HEIGHT)
      SCHIP_WIDTH SCHIP_HEIGHT n 0 s.gfx_hi 0
    { s with gfx_hi := p.1, V := upd s.V 0xF p.2, draw_flag := true }
  else
    let p := drawRows s.mem s.I (vx % CHIP8_WIDTH) (vy % CHIP8_HEIGHT)
      CHIP8_WIDTH CHIP8_HEIGHT n 0 s.gfx 0
    { s with gfx := p.1, V := upd s.V 0xF p.2, draw_flag := true }

/-- The `FX33` body: three bytearray writes at `I`, `I+1`, `I+2` (unmasked in
the source, unlike `FX55`/`FX65`), each able to raise, leaving the earlier
writes in place. -/
def bcdStore (x : Nat) (s : Machine) : Except Machine Machine :=
  match bytearraySet s.mem s.I (s.V x / 100) with
  | none => .error s
  | some m1 =>
    match bytearraySet m1 (s.I + 1) (s.V x / 10 % 10) with
    | none => .error { s with mem := m1 }
    | some m2 =>
      match bytearraySet m2 (s.I + 2) (s.V x % 10) with
      | none => .error { s with mem := m2 }
      | some m3 => .ok { s with mem := m3, PC := s.PC + 2 }

/-- The `FX55` body: run the store loop, then `PC += 2` on success. -/
def regStore (x : Nat) (s : Machine) : Except Machine Machine :=
  match storeMemLoop s.V s.I x 0 s.mem with
  | .error m => .error { s with mem := m }
  | .ok m => .ok { s with mem := m, PC := s.PC + 2 }

/-- `CPU._misc(x, nn)`: the `FXNN` family.  Every branch falls through to
`PC += 2` except `FX0A`, which returns before the increment; `FX33` and
`FX55` thread the bytearray writes and surface `IndexError` with the
partially written memory. -/
def misc (x nn : Nat) (s : Machine) : Except Machine Machine :=
  if nn = 0x07 then .ok { s with V := upd s.V x s.DT, PC := s.PC + 2 }
  else if nn = 0x0A then .ok { s with wait_key := true, wait_reg := x }
  else if nn = 0x15 then .ok { s with DT := s.V x, PC := s.PC + 2 }
  else if nn = 0x18 then .ok { s with ST := s.V x, PC := s.PC + 2 }
  else if nn = 0x1E then .ok { s with I := (s.I + s.V x) &&& 0xFFFF, PC := s.PC + 2 }
  else if nn = 0x29 then .ok { s with I := (s.V x &&& 0xF) * 5, PC := s.PC + 2 }
  else if nn = 0x30 then .ok { s with I := 80 + (s.V x &&& 0xF) * 10, PC := s.PC + 2 }
  else if nn = 0x33 then bcdStore x s
  else if nn = 0x55 then regStore x s
  else if nn = 0x65 then .ok { s with V := loadV s.mem s.I x s.V, PC := s.PC + 2 }
  else if nn = 0x75 then .ok { s with rpl := rplStore s.V x s.rpl, PC := s.PC + 2 }
  else if nn = 0x85 then .ok { s with V := rplLoad s.rpl x s.V, PC := s.PC + 2 }
  else .ok { s with PC := s.PC + 2 }

/-- `CPU._exec(op)`: the main dispatch chain, in source order.  `rnd` is the
PRNG draw consumed by `CXNN`. -/
def exec (rnd op : Nat) (s : Machine) : Except Machine Machine :=
  if op = 0x00E0 then
    if s.hires then
      .ok { s with gfx_hi := clearPlane SCHIP_HEIGHT SCHIP_WIDTH s.gfx_hi,
                   draw_flag := true, PC := s.PC + 2 }
    else
      .ok { s with gfx := clearPlane CHIP8_HEIGHT CHIP8_WIDTH s.gfx,
                   draw_flag := true, PC := s.PC + 2 }
  else if op = 0x00EE then
    -- `SP -= 1` happens before the stack read, so a failing read leaves SP
    -- decremented (Python evaluates `self.stack[self.SP]` after the update).
    let sp1 := s.SP - 1
    if -16 ≤ sp1 ∧ sp1 < 16 then
      .ok { s with SP := sp1, PC := s.stack (stackIdx sp1) + 2 }
    else .error { s with SP := sp1 }
  else if op = 0x00FB then
    if s.hires then
      .ok { s with gfx_hi := scrollRight SCHIP_HEIGHT SCHIP_WIDTH s.gfx_hi,
                   draw_flag := true, PC := s.PC + 2 }
    else
      .ok { s with gfx := scrollRight CHIP8_HEIGHT CHIP8_WIDTH s.gfx,
                   draw_flag := true, PC := s.PC + 2 }
  else if op = 0x00FC then
    if s.hires then
      .ok { s with gfx_hi := scrollLeft SCHIP_HEIGHT SCHIP_WIDTH s.gfx_hi,
                   draw_flag := true, PC := s.PC + 2 }
    else
      .ok { s with gfx := scrollLeft CHIP8_HEIGHT CHIP8_WIDTH s.gfx,
                   draw_flag := true, PC := s.PC + 2 }
  else if op = 0x00FD then .ok { s with halted := true }
  else if op = 0x00FE then .ok { s with hires := false, PC := s.PC + 2 }
  else if op = 0x00FF then .ok { s with hires := true, PC := s.PC + 2 }
  else if opHi op = 0 ∧ op &&& 0xF0 = 0xC0 then
    if s.hires then
      .ok { s with gfx_hi := scrollDown (opN op) SCHIP_HEIGHT SCHIP_WIDTH s.gfx_hi,
                   draw_flag := true, PC := s.PC + 2 }
    else
      .ok { s with gfx := scrollDown (opN op) CHIP8_HEIGHT CHIP8_WIDTH s.gfx,
                   draw_flag := true, PC := s.PC + 2 }
  else if opHi op = 0 then .ok { s with PC := s.PC + 2 }
  else if opHi op = 1 then .ok { s with PC := opNNN op }
  else if opHi op = 2 then
    if -16 ≤ s.SP ∧ s.SP < 16 then
      .ok { s with stack := upd s.stack (stackIdx s.SP) s.PC,
                   SP := s.SP + 1, PC := opNNN op }
    else .error s
  else if opHi op = 3 then
    .ok { s with PC := s.PC + (if s.V (opX op) = opNN op then 4 else 2) }
  else if opHi op = 4 then
    .ok { s with PC := s.PC + (if s.V (opX op) ≠ opNN op then 4 else 2) }
  else if opHi op = 5 ∧ opN op = 0 then
    .ok { s with PC := s.PC + (if s.V (opX op) = s.V (opY op) then 4 else 2) }
  else if opHi op = 6 then
    .ok { s with V := upd s.V (opX op) (opNN op), PC := s.PC + 2 }
  else if opHi op = 7 then
    .ok { s with V := upd s.V (opX op) ((s.V (opX op) + opNN op) &&& 0xFF),
                 PC := s.PC + 2 }
  else if opHi op = 8 then
    .ok { s with V := alu (opX op) (opY op) (opN op) s.V, PC := s.PC + 2 }
  else if opHi op = 9 ∧ opN op = 0 then
    .ok { s with PC := s.PC + (if s.V (opX op) ≠ s.V (opY op) then 4 else 2) }
  else if opHi op = 0xA then .ok { s with I := opNNN op, PC := s.PC + 2 }
  else if opHi op = 0xB then .ok { s with PC := opNNN op + s.V 0 }
  else if opHi op = 0xC then
    .ok { s with V := upd s.V (opX op) ((rnd % 256) &&& opNN op), PC := s.PC + 2 }
  else if opHi op = 0xD then
    let t := draw (opX op) (opY op) (opN op) s
    .ok { t with PC := t.PC + 2 }
  else if opHi op = 0xE then
    let k := s.V (opX op) &&& 0xF
    if opNN op = 0x9E then
      .ok { s with PC := s.PC + (if s.keys k ≠ 0 then 4 else 2) }
    else if opNN op = 0xA1 then
      .ok { s with PC := s.PC + (if s.keys k = 0 then 4 else 2) }
    else .ok { s with PC := s.PC + 2 }
  else if opHi op = 0xF then misc (opX op) (opNN op) s
  else .ok { s with PC := s.PC + 2 }

/-- `CPU.step()`: gate on `halted`/`wait_key`, big-endian fetch at `PC`
(unchecked in the source, so the bytearray read can raise), execute, then
`cycles += 1`. -/
def step (rnd : Nat) (s : Machine) : Except Machine Machine :=
  if s.halted || s.wait_key then .ok s
  else
    match memGet s s.PC with
    | none => .error s
    | some b1 =>
      match memGet s (s.PC + 1) with
      | none => .error s
      | some b2 =>
        match exec rnd ((b1 <<< 8) ||| b2) s with
        | .error e => .error e
        | .ok t => .ok { t with cycles := t.cycles + 1 }

/-- Memory contents immediately after `CPU.reset()`: fonts at 0 and 80,
zeroes elsewhere. -/
def resetMem : Nat → Nat :=
  fun i =>
    if i < 80 then FONTSET.getD i 0
    else if i < 180 then SCHIP_FONT.getD (i - 80) 0
    else 0

/-- `CPU.reset()`: reassigns every field of the object (including `rpl`,
which the source sets to `[0] * 8`). -/
def reset (_s : Machine) : Machine :=
  { mem := resetMem, V := fun _ => 0, I := 0, PC := PROGRAM_START,
    stack := fun _ => 0, SP := 0, DT := 0, ST := 0, hires := false,
    gfx := fun _ _ => 0, gfx_hi := fun _ _ => 0, keys := fun _ => 0,
    wait_key := false, wait_reg := 0, draw_flag := true, halted := false,
    loaded := false, rom_name := "", rom_path := "", cycles := 0,
    rpl := fun _ => 0 }

/-- `CPU.load_bytes(data, name)`: reject oversized ROMs without touching the
state, otherwise reset and copy the ROM to 0x200. -/
def load_bytes (data : List Nat) (name : String) (s : Machine) : Bool × Machine :=
  if data.length > MEMORY_SIZE - PROGRAM_START then (false, s)
  else
    let r := reset s
    (true,
      { r with
        mem := fun i =>
          if PROGRAM_START ≤ i ∧ i < PROGRAM_START + data.length then
            data.getD (i - PROGRAM_START) 0
          else r.mem i,
        loaded := true, rom_name := name })

/-- `CPU.tick_timers()`. -/
def tick_timers (s : Machine) : Machine :=
  { s with DT := if s.DT > 0 then s.DT - 1 else s.DT,
           ST := if s.ST > 0 then s.ST - 1 else s.ST }

/-- `CPU.key_down(k)`: `k` is an arbitrary integer; out-of-range codes are
ignored by the `0 <= k < 16` guard. -/
def key_down (k : Int) (s : Machine) : Machine :=
  if 0 ≤ k ∧ k < 16 then
    let s1 := { s with keys := upd s.keys k.toNat 1 }
    if s1.wait_key then
      { s1 with V := upd s1.V s1.wait_reg k.toNat, wait_key := false,
                PC := s1.PC + 2 }
    else s1
  else s

/-- `CPU.key_up(k)`. -/
def key_up (k : Int) (s : Machine) : Machine :=
  if 0 ≤ k ∧ k < 16 then { s with keys := upd s.keys k.toNat 0 } else s

/-- `CPU.state()`: the snapshot dictionary (deep copies are implicit in the
pure embedding). -/
def state (s : Machine) : Snap :=
  ⟨s.mem, s.V, s.I, s.PC, s.stack, s.SP, s.DT, s.ST, s.hires, s.gfx,
   s.gfx_hi, s.cycles⟩

/-- `CPU.restore(s)`: overwrite the twelve snapshotted fields, set
`draw_flag`, and leave everything else (`keys`, `wait_key`, `wait_reg`,
`halted`, `loaded`, `rpl`, …) untouched. -/
def restore (sn : Snap) (s : Machine) : Machine :=
  { s with mem := sn.mem, V := sn.V, I := sn.I, PC := sn.PC,
           stack := sn.stack, SP := sn.SP, DT := sn.DT, ST := sn.ST,
           hires := sn.hires, gfx := sn.gfx, gfx_hi := sn.gfx_hi,
           cycles := sn.cycles, draw_flag := true }

end CPU

/-- Iterated `step` with a fixed PRNG draw, short-circuiting on the first
escaped exception. -/
def stepN (rnd : Nat) : Nat → Machine → Except Machine Machine
  | 0, s => .ok s
  | k + 1, s => (CPU.step rnd s).bind (stepN rnd k)

/-- A machine in the freshly-constructed state (`CPU.__init__` calls
`reset()`); the argument fields are irrelevant because `reset` reassigns
every field. -/
def blankMachine : Machine :=
  CPU.reset
    { mem := fun _ => 0, V := fun _ => 0, I := 0, PC := 0, stack := fun _ => 0,
      SP := 0, DT := 0, ST := 0, hires := false, gfx := fun _ _ => 0,
      gfx_hi := fun _ _ => 0, keys := fun _ => 0, wait_key := false,
      wait_reg := 0, draw_flag := false, halted := false, loaded := false,
      rom_name := "", rom_path := "", cycles := 0, rpl := fun _ => 0 }

/-! ### Arithmetic utilities -/

lemma upd_apply (f : Nat → Nat) (i v j : Nat) :
    upd f i v j = if j = i then v else f j := rfl

lemma or_lt_256 {a b : Nat} (ha : a < 256) (hb : b < 256) : a ||| b < 256 := by
  have : a ||| b < 2 ^ 8 :=
    Nat.or_lt_two_pow (by simpa using ha) (by simpa using hb)
  simpa using this

lemma xor_lt_256 {a b : Nat} (ha : a < 256) (hb : b < 256) : a ^^^ b < 256 := by
  have : a ^^^ b < 2 ^ 8 :=
    Nat.xor_lt_two_pow (by simpa using ha) (by simpa using hb)
  simpa using this

lemma shiftRight_le_self (a k : Nat) : a >>> k ≤ a := by
  rw [Nat.shiftRight_eq_div_pow]; exact Nat.div_le_self _ _

lemma and_4095_eq_mod (a : Nat) : a &&& 4095 = a % 4096 :=
  Nat.and_pow_two_sub_one_eq_mod a 12

lemma opX_lt (op : Nat) : opX op < 16 :=
  lt_of_le_of_lt (Nat.and_le_right) (by norm_num)

lemma opY_lt (op : Nat) : opY op < 16 :=
  lt_of_le_of_lt (Nat.and_le_right) (by norm_num)

lemma opN_lt (op : Nat) : opN op < 16 :=
  lt_of_le_of_lt (Nat.and_le_right) (by norm_num)

lemma opNN_lt (op : Nat) : opNN op < 256 :=
  lt_of_le_of_lt (Nat.and_le_right) (by norm_num)

lemma opNNN_lt (op : Nat) : opNNN op < 4096 :=
  lt_of_le_of_lt (Nat.and_le_right) (by norm_num)

lemma subByte_lt (a b : Nat) : subByte a b < 256 := by
  unfold subByte
  have h1 : 0 ≤ ((a : Int) - b) % 256 := Int.emod_nonneg _ (by norm_num)
  have h2 : ((a : Int) - b) % 256 < 256 := Int.emod_lt_of_pos _ (by norm_num)
  omega

lemma mask255_lt (a : Nat) : a &&& 0xFF < 256 :=
  lt_of_le_of_lt (Nat.and_le_right) (by norm_num)

lemma mask65535_lt (a : Nat) : a &&& 0xFFFF < 65536 :=
  lt_of_le_of_lt (Nat.and_le_right) (by norm_num)

lemma mask4095_lt (a : Nat) : a &&& 0xFFF < 4096 :=
  lt_of_le_of_lt (Nat.and_le_right) (by norm_num)

/-- Sixteen consecutive addresses stay distinct after wrapping modulo 4096. -/
lemma wrap_addr_inj {base i j : Nat} (hi : i < 16) (hj : j < 16)
    (h : (base + i) % 4096 = (base + j) % 4096) : i = j := by omega

/-! ### Register-file bounds for the ALU -/

set_option maxHeartbeats 1000000 in
lemma aluV_lt (x y n : Nat) (V : Nat → Nat) (hx : x < 16) (hy : y < 16)
    (hV : ∀ i, i < 16 → V i < 256) : ∀ i, i < 16 → CPU.alu x y n V i < 256 := by
  intro i hi
  have hVx := hV x hx
  have hVy := hV y hy
  have hVi := hV i hi
  unfold CPU.alu
  split_ifs <;> (try simp only [upd_apply]) <;> (try split_ifs) <;>
    first
      | exact hVi
      | exact hVy
      | exact mask255_lt _
      | exact subByte_lt _ _
      | exact or_lt_256 hVx hVy
      | exact xor_lt_256 hVx hVy
      | exact lt_of_le_of_lt Nat.and_le_left hVx
      | exact lt_of_le_of_lt (shiftRight_le_self _ _) hVx
      | exact lt_of_le_of_lt Nat.and_le_right (by norm_num)
      | omega

/-! ### Collision-flag bounds for the sprite loops -/

lemma drawCols_vf_le (spr py vx w col : Nat) (g : Nat → Nat → Nat) (vf : Nat)
    (h : vf ≤ 1) : (drawCols spr py vx w col g vf).2 ≤ 1 := by
  by_cases hc : col < 8
  · rw [drawCols]
    simp only [hc, dif_pos]
    split_ifs with hb hcol
    · exact drawCols_vf_le spr py vx w (col + 1) _ 1 (le_refl 1)
    · exact drawCols_vf_le spr py vx w (col + 1) _ vf h
    · exact drawCols_vf_le spr py vx w (col + 1) g vf h
  · rw [drawCols]; simp [hc, h]
termination_by 8 - col

lemma drawRows_vf_le (mem : Nat → Nat) (memI vx vy w hh n row : Nat)
    (g : Nat → Nat → Nat) (vf : Nat) (h : vf ≤ 1) :
    (drawRows mem memI vx vy w hh n row g vf).2 ≤ 1 := by
  by_cases hc : row < n
  · rw [drawRows]
    simp only [hc, dif_pos]
    exact drawRows_vf_le mem memI vx vy w hh n (row + 1) _ _
      (drawCols_vf_le _ _ _ _ _ _ _ h)
  · rw [drawRows]; simp [hc, h]
termination_by n - row

lemma draw16Cols_vf_le (word py vx col : Nat) (g : Nat → Nat → Nat) (vf : Nat)
    (h : vf ≤ 1) : (draw16Cols word py vx col g vf).2 ≤ 1 := by
  by_cases hc : col < 16
  · rw [draw16Cols]
    simp only [hc, dif_pos]
    split_ifs with hb hcol
    · exact draw16Cols_vf_le word py vx (col + 1) _ 1 (le_refl 1)
    · exact draw16Cols_vf_le word py vx (col + 1) _ vf h
    · exact draw16Cols_vf_le word py vx (col + 1) g vf h
  · rw [draw16Cols]; simp [hc, h]
termination_by 16 - col

lemma draw16Rows_vf_le (mem : Nat → Nat) (memI vx vy row : Nat)
    (g : Nat → Nat → Nat) (vf : Nat) (h : vf ≤ 1) :
    (draw16Rows mem memI vx vy row g vf).2 ≤ 1 := by
  by_cases hc : row < 16
  · rw [draw16Rows]
    simp only [hc, dif_pos]
    exact draw16Rows_vf_le mem memI vx vy (row + 1) _ _
      (draw16Cols_vf_le _ _ _ _ _ _ h)
  · rw [draw16Rows]; simp [hc, h]
termination_by 16 - row

/-- `_draw` only rewrites the register file at `V[0xF]`, with a 0/1 flag. -/
lemma draw_V (x y n : Nat) (s : Machine) :
    ∃ vf, vf ≤ 1 ∧ (CPU.draw x y n s).V = upd s.V 0xF vf := by
  unfold CPU.draw
  split_ifs
  · exact ⟨_, draw16Rows_vf_le _ _ _ _ _ _ _ (by omega), rfl⟩
  · exact ⟨_, drawRows_vf_le _ _ _ _ _ _ _ _ _ _ (by omega), rfl⟩
  · exact ⟨_, drawRows_vf_le _ _ _ _ _ _ _ _ _ _ (by omega), rfl⟩

/-- `_draw` leaves every non-framebuffer, non-`V`, non-`draw_flag` field
unchanged. -/
lemma draw_frame (x y n : Nat) (s : Machine) :
    (CPU.draw x y n s).mem = s.mem ∧ (CPU.draw x y n s).I = s.I ∧
    (CPU.draw x y n s).PC = s.PC ∧ (CPU.draw x y n s).stack = s.stack ∧
    (CPU.draw x y n s).SP = s.SP ∧ (CPU.draw x y n s).DT = s.DT ∧
    (CPU.draw x y n s).ST = s.ST ∧ (CPU.draw x y n s).hires = s.hires ∧
    (CPU.draw x y n s).keys = s.keys ∧ (CPU.draw x y n s).wait_key = s.wait_key ∧
    (CPU.draw x y n s).wait_reg = s.wait_reg ∧
    (CPU.draw x y n s).halted = s.halted ∧ (CPU.draw x y n s).loaded = s.loaded ∧
    (CPU.draw x y n s).rpl = s.rpl ∧ (CPU.draw x y n s).cycles = s.cycles := by
  unfold CPU.draw
  split_ifs <;> simp

/-! ### The FX55 store loop -/

lemma storeMemLoop_ok (V : Nat → Nat) (memI x : Nat)
    (hV : ∀ i, i < 16 → V i < 256) (hx : x < 16) (i : Nat) (m : Nat → Nat) :
    ∃ m2, storeMemLoop V memI x i m = .ok m2 := by
  by_cases hc : i < x + 1
  · rw [storeMemLoop]
    simp only [hc, dif_pos]
    have hset : bytearraySet m ((memI + i) &&& 0xFFF) (V i) =
        some (upd m ((memI + i) &&& 0xFFF) (V i)) := by
      unfold bytearraySet
      rw [if_pos ⟨mask4095_lt _, hV i (by omega)⟩]
    rw [hset]
    exact storeMemLoop_ok V memI x hV hx (i + 1) _
  · rw [storeMemLoop]; simp [hc]
termination_by x + 1 - i

lemma storeMemLoop_spec (V : Nat → Nat) (memI x : Nat)
    (hV : ∀ i, i < 16 → V i < 256) (hx : x < 16) (i : Nat) (m m2 : Nat → Nat)
    (hrun : storeMemLoop V memI x i m = .ok m2) :
    (∀ j, i ≤ j → j ≤ x → m2 ((memI + j) % 4096) = V j) ∧
    (∀ a, (∀ j, i ≤ j → j ≤ x → a ≠ (memI + j) % 4096) → m2 a = m a) := by
  by_cases hc : i < x + 1
  · rw [storeMemLoop] at hrun
    simp only [hc, dif_pos] at hrun
    have hset : bytearraySet m ((memI + i) &&& 0xFFF) (V i) =
        some (upd m ((memI + i) &&& 0xFFF) (V i)) := by
      unfold bytearraySet
      rw [if_pos ⟨mask4095_lt _, hV i (by omega)⟩]
    rw [hset] at hrun
    obtain ⟨ih1, ih2⟩ := storeMemLoop_spec V memI x hV hx (i + 1) _ m2 hrun
    constructor
    · intro j hij hjx
      by_cases hji : j = i
      · have hdiff : ∀ k, i + 1 ≤ k → k ≤ x →
            (memI + i) % 4096 ≠ (memI + k) % 4096 := by
          intro k hk1 hk2 heq
          have := wrap_addr_inj (by omega) (by omega) heq
          omega
        rw [hji, ih2 _ hdiff, upd_apply, and_4095_eq_mod, if_pos rfl]
      · exact ih1 j (by omega) hjx
    · intro a ha
      rw [ih2 a (fun j h1 h2 => ha j (by omega) h2)]
      rw [upd_apply, and_4095_eq_mod, if_neg (ha i (le_refl i) (by omega))]
  · rw [storeMemLoop] at hrun
    simp only [hc, dif_neg, not_false_iff] at hrun
    cases hrun
    exact ⟨fun j hij hjx => by omega, fun a _ => rfl⟩
termination_by x + 1 - i

lemma stackIdx_lt (i : Int) : stackIdx i < 16 := by
  unfold stackIdx
  have h1 : 0 ≤ i % 16 := Int.emod_nonneg _ (by norm_num)
  have h2 : i % 16 < 16 := Int.emod_lt_of_pos _ (by norm_num)
  omega

/-! ### The FXNN family: totality, bounds, frame conditions, congruence -/
/-- Branch reduction for `_misc`: each equation is definitional at a literal
`nn`. -/
lemma misc_07 (x : Nat) (s : Machine) :
    CPU.misc x 0x07 s = .ok { s with V := upd s.V x s.DT, PC := s.PC + 2 } := rfl

lemma misc_0A (x : Nat) (s : Machine) :
    CPU.misc x 0x0A s = .ok { s with wait_key := true, wait_reg := x } := rfl

lemma misc_15 (x : Nat) (s : Machine) :
    CPU.misc x 0x15 s = .ok { s with DT := s.V x, PC := s.PC + 2 } := rfl

lemma misc_18 (x : Nat) (s : Machine) :
    CPU.misc x 0x18 s = .ok { s with ST := s.V x, PC := s.PC + 2 } := rfl

lemma misc_1E (x : Nat) (s : Machine) :
    CPU.misc x 0x1E s =
      .ok { s with I := (s.I + s.V x) &&& 0xFFFF, PC := s.PC + 2 } := rfl

lemma misc_29 (x : Nat) (s : Machine) :
    CPU.misc x 0x29 s =
      .ok { s with I := (s.V x &&& 0xF) * 5, PC := s.PC + 2 } := rfl

lemma misc_30 (x : Nat) (s : Machine) :
    CPU.misc x 0x30 s =
      .ok { s with I := 80 + (s.V x &&& 0xF) * 10, PC := s.PC + 2 } := rfl

lemma misc_33 (x : Nat) (s : Machine) :
    CPU.misc x 0x33 s = CPU.bcdStore x s := rfl

lemma misc_55 (x : Nat) (s : Machine) :
    CPU.misc x 0x55 s = CPU.regStore x s := rfl

lemma misc_65 (x : Nat) (s : Machine) :
    CPU.misc x 0x65 s =
      .ok { s with V := loadV s.mem s.I x s.V, PC := s.PC + 2 } := rfl

lemma misc_75 (x : Nat) (s : Machine) :
    CPU.misc x 0x75 s =
      .ok { s with rpl := rplStore s.V x s.rpl, PC := s.PC + 2 } := rfl

lemma misc_85 (x : Nat) (s : Machine) :
    CPU.misc x 0x85 s =
      .ok { s with V := rplLoad s.rpl x s.V, PC := s.PC + 2 } := rfl

lemma misc_default (x nn : Nat) (s : Machine)
    (h07 : nn ≠ 0x07) (h0A : nn ≠ 0x0A) (h15 : nn ≠ 0x15) (h18 : nn ≠ 0x18)
    (h1E : nn ≠ 0x1E) (h29 : nn ≠ 0x29) (h30 : nn ≠ 0x30) (h33 : nn ≠ 0x33)
    (h55 : nn ≠ 0x55) (h65 : nn ≠ 0x65) (h75 : nn ≠ 0x75) (h85 : nn ≠ 0x85) :
    CPU.misc x nn s = .ok { s with PC := s.PC + 2 } := by
  unfold CPU.misc
  rw [if_neg h07, if_neg h0A, if_neg h15, if_neg h18, if_neg h1E, if_neg h29,
      if_neg h30, if_neg h33, if_neg h55, if_neg h65, if_neg h75, if_neg h85]

/-- When `I + 2` is in range and `V[x]` is a byte, `FX33` writes the three
BCD digits at the raw addresses `I`, `I+1`, `I+2`. -/
lemma bcdStore_eq (x : Nat) (s : Machine) (hv : s.V x < 256)
    (hI : s.I + 2 < 4096) :
    CPU.bcdStore x s = .ok { s with
      mem := upd (upd (upd s.mem s.I (s.V x / 100)) (s.I + 1)
        (s.V x / 10 % 10)) (s.I + 2) (s.V x % 10),
      PC := s.PC + 2 } := by
  have h1 : bytearraySet s.mem s.I (s.V x / 100) =
      some (upd s.mem s.I (s.V x / 100)) := by
    unfold bytearraySet
    rw [if_pos ⟨by unfold MEMORY_SIZE; omega,
      by have := Nat.div_le_self (s.V x) 100; omega⟩]
  have h2 : bytearraySet (upd s.mem s.I (s.V x / 100)) (s.I + 1)
      (s.V x / 10 % 10) = some (upd (upd s.mem s.I (s.V x / 100)) (s.I + 1)
        (s.V x / 10 % 10)) := by
    unfold bytearraySet
    rw [if_pos ⟨by unfold MEMORY_SIZE; omega,
      by have := Nat.mod_lt (s.V x / 10) (show 0 < 10 by norm_num); omega⟩]
  have h3 : bytearraySet (upd (upd s.mem s.I (s.V x / 100)) (s.I + 1)
      (s.V x / 10 % 10)) (s.I + 2) (s.V x % 10) =
      some (upd (upd (upd s.mem s.I (s.V x / 100)) (s.I + 1)
        (s.V x / 10 % 10)) (s.I + 2) (s.V x % 10)) := by
    unfold bytearraySet
    rw [if_pos ⟨by unfold MEMORY_SIZE; omega,
      by have := Nat.mod_lt (s.V x) (show 0 < 10 by norm_num); omega⟩]
  simp only [CPU.bcdStore, h1, h2, h3]

/-- When `I + 2` runs past the end of memory, `FX33` raises `IndexError`. -/
lemma bcdStore_err (x : Nat) (s : Machine) (hI : 4096 ≤ s.I + 2) :
    (CPU.bcdStore x s).isOk = false := by
  cases hb1 : bytearraySet s.mem s.I (s.V x / 100) with
  | none => simp [CPU.bcdStore, hb1, Except.isOk, Except.toBool]
  | some m1 =>
    cases hb2 : bytearraySet m1 (s.I + 1) (s.V x / 10 % 10) with
    | none => simp [CPU.bcdStore, hb1, hb2, Except.isOk, Except.toBool]
    | some m2 =>
      have h3 : bytearraySet m2 (s.I + 2) (s.V x % 10) = none := by
        unfold bytearraySet
        rw [if_neg]
        rintro ⟨hlt, -⟩
        unfold MEMORY_SIZE at hlt
        omega
      simp [CPU.bcdStore, hb1, hb2, h3, Except.isOk, Except.toBool]

/-- A successful `FX33` only rewrites memory and advances `PC` by 2. -/
lemma bcdStore_ok_frame (x : Nat) (s t : Machine)
    (h : CPU.bcdStore x s = .ok t) :
    ∃ m3, t = { s with mem := m3, PC := s.PC + 2 } := by
  cases hb1 : bytearraySet s.mem s.I (s.V x / 100) with
  | none => simp [CPU.bcdStore, hb1] at h
  | some m1 =>
    cases hb2 : bytearraySet m1 (s.I + 1) (s.V x / 10 % 10) with
    | none => simp [CPU.bcdStore, hb1, hb2] at h
    | some m2 =>
      cases hb3 : bytearraySet m2 (s.I + 2) (s.V x % 10) with
      | none => simp [CPU.bcdStore, hb1, hb2, hb3] at h
      | some m3 =>
        simp [CPU.bcdStore, hb1, hb2, hb3] at h
        exact ⟨m3, h.symm⟩

/-- A successful `FX55` only rewrites memory and advances `PC` by 2. -/
lemma regStore_ok_frame (x : Nat) (s t : Machine)
    (h : CPU.regStore x s = .ok t) :
    ∃ m, t = { s with mem := m, PC := s.PC + 2 } := by
  cases hsl : storeMemLoop s.V s.I x 0 s.mem with
  | error m => simp [CPU.regStore, hsl] at h
  | ok m =>
    simp [CPU.regStore, hsl] at h
    exact ⟨m, h.symm⟩

lemma miscTotal (x nn : Nat) (s : Machine) (hx : x < 16)
    (hV : ∀ i, i < 16 → s.V i < 256)
    (hbcd : nn = 0x33 → s.I + 2 < 4096) :
    (CPU.misc x nn s).isOk = true := by
  have hv : s.V x < 256 := hV x hx
  by_cases h07 : nn = 0x07
  · rw [h07, misc_07]; rfl
  by_cases h0A : nn = 0x0A
  · rw [h0A, misc_0A]; rfl
  by_cases h15 : nn = 0x15
  · rw [h15, misc_15]; rfl
  by_cases h18 : nn = 0x18
  · rw [h18, misc_18]; rfl
  by_cases h1E : nn = 0x1E
  · rw [h1E, misc_1E]; rfl
  by_cases h29 : nn = 0x29
  · rw [h29, misc_29]; rfl
  by_cases h30 : nn = 0x30
  · rw [h30, misc_30]; rfl
  by_cases h33 : nn = 0x33
  · rw [h33, misc_33, bcdStore_eq x s hv (hbcd h33)]; rfl
  by_cases h55 : nn = 0x55
  · obtain ⟨m2, hm⟩ := storeMemLoop_ok s.V s.I x hV hx 0 s.mem
    rw [h55, misc_55]
    unfold CPU.regStore
    rw [hm]
    rfl
  by_cases h65 : nn = 0x65
  · rw [h65, misc_65]; rfl
  by_cases h75 : nn = 0x75
  · rw [h75, misc_75]; rfl
  by_cases h85 : nn = 0x85
  · rw [h85, misc_85]; rfl
  rw [misc_default x nn s h07 h0A h15 h18 h1E h29 h30 h33 h55 h65 h75 h85]
  rfl

lemma miscBounds (x nn : Nat) (s t : Machine) (hx : x < 16)
    (hV : ∀ i, i < 16 → s.V i < 256) (hI : s.I < 65536)
    (hmem : ∀ i, i < 4096 → s.mem i < 256) (hDT : s.DT < 256)
    (hrpl : ∀ i, i < 8 → s.rpl i < 256)
    (h : CPU.misc x nn s = .ok t) :
    (∀ i, i < 16 → t.V i < 256) ∧ t.I < 65536 ∧
    (t.PC = s.PC + 2 ∨ t.PC = s.PC) ∧ t.SP = s.SP := by
  by_cases h07 : nn = 0x07
  · rw [h07, misc_07] at h
    cases h
    refine ⟨fun i hi => ?_, hI, Or.inl rfl, rfl⟩
    show upd s.V x s.DT i < 256
    rw [upd_apply]; split_ifs <;> [exact hDT; exact hV i hi]
  by_cases h0A : nn = 0x0A
  · rw [h0A, misc_0A] at h; cases h; exact ⟨hV, hI, Or.inr rfl, rfl⟩
  by_cases h15 : nn = 0x15
  · rw [h15, misc_15] at h; cases h; exact ⟨hV, hI, Or.inl rfl, rfl⟩
  by_cases h18 : nn = 0x18
  · rw [h18, misc_18] at h; cases h; exact ⟨hV, hI, Or.inl rfl, rfl⟩
  by_cases h1E : nn = 0x1E
  · rw [h1E, misc_1E] at h; cases h; exact ⟨hV, mask65535_lt _, Or.inl rfl, rfl⟩
  by_cases h29 : nn = 0x29
  · rw [h29, misc_29] at h; cases h
    refine ⟨hV, ?_, Or.inl rfl, rfl⟩
    show (s.V x &&& 0xF) * 5 < 65536
    have : s.V x &&& 0xF ≤ 0xF := Nat.and_le_right
    omega
  by_cases h30 : nn = 0x30
  · rw [h30, misc_30] at h; cases h
    refine ⟨hV, ?_, Or.inl rfl, rfl⟩
    show 80 + (s.V x &&& 0xF) * 10 < 65536
    have : s.V x &&& 0xF ≤ 0xF := Nat.and_le_right
    omega
  by_cases h33 : nn = 0x33
  · rw [h33, misc_33] at h
    obtain ⟨m3, ht⟩ := bcdStore_ok_frame x s t h
    subst ht
    exact ⟨hV, hI, Or.inl rfl, rfl⟩
  by_cases h55 : nn = 0x55
  · rw [h55, misc_55] at h
    obtain ⟨m, ht⟩ := regStore_ok_frame x s t h
    subst ht
    exact ⟨hV, hI, Or.inl rfl, rfl⟩
  by_cases h65 : nn = 0x65
  · rw [h65, misc_65] at h; cases h
    refine ⟨fun i hi => ?_, hI, Or.inl rfl, rfl⟩
    show loadV s.mem s.I x s.V i < 256
    unfold loadV
    split_ifs
    · exact hmem _ (mask4095_lt _)
    · exact hV i hi
  by_cases h75 : nn = 0x75
  · rw [h75, misc_75] at h; cases h; exact ⟨hV, hI, Or.inl rfl, rfl⟩
  by_cases h85 : nn = 0x85
  · rw [h85, misc_85] at h; cases h
    refine ⟨fun i hi => ?_, hI, Or.inl rfl, rfl⟩
    show rplLoad s.rpl x s.V i < 256
    unfold rplLoad
    split_ifs with hlt
    · exact hrpl i (by omega)
    · exact hV i hi
  rw [misc_default x nn s h07 h0A h15 h18 h1E h29 h30 h33 h55 h65 h75 h85] at h
  cases h
  exact ⟨hV, hI, Or.inl rfl, rfl⟩

lemma miscFrame (x nn : Nat) (s t : Machine)
    (h : CPU.misc x nn s = .ok t) :
    t.keys = s.keys ∧ t.halted = s.halted ∧ t.loaded = s.loaded ∧
    (t.wait_key = s.wait_key ∨
      (nn = 0x0A ∧ t = { s with wait_key := true, wait_reg := x })) ∧
    (¬nn = 0x75 → t.rpl = s.rpl) := by
  by_cases h07 : nn = 0x07
  · rw [h07, misc_07] at h; cases h; exact ⟨rfl, rfl, rfl, Or.inl rfl, fun _ => rfl⟩
  by_cases h0A : nn = 0x0A
  · rw [h0A, misc_0A] at h; cases h; exact ⟨rfl, rfl, rfl, Or.inr ⟨h0A, rfl⟩, fun _ => rfl⟩
  by_cases h15 : nn = 0x15
  · rw [h15, misc_15] at h; cases h; exact ⟨rfl, rfl, rfl, Or.inl rfl, fun _ => rfl⟩
  by_cases h18 : nn = 0x18
  · rw [h18, misc_18] at h; cases h; exact ⟨rfl, rfl, rfl, Or.inl rfl, fun _ => rfl⟩
  by_cases h1E : nn = 0x1E
  · rw [h1E, misc_1E] at h; cases h; exact ⟨rfl, rfl, rfl, Or.inl rfl, fun _ => rfl⟩
  by_cases h29 : nn = 0x29
  · rw [h29, misc_29] at h; cases h; exact ⟨rfl, rfl, rfl, Or.inl rfl, fun _ => rfl⟩
  by_cases h30 : nn = 0x30
  · rw [h30, misc_30] at h; cases h; exact ⟨rfl, rfl, rfl, Or.inl rfl, fun _ => rfl⟩
  by_cases h33 : nn = 0x33
  · rw [h33, misc_33] at h
    obtain ⟨m3, ht⟩ := bcdStore_ok_frame x s t h
    subst ht
    exact ⟨rfl, rfl, rfl, Or.inl rfl, fun _ => rfl⟩
  by_cases h55 : nn = 0x55
  · rw [h55, misc_55] at h
    obtain ⟨m, ht⟩ := regStore_ok_frame x s t h
    subst ht
    exact ⟨rfl, rfl, rfl, Or.inl rfl, fun _ => rfl⟩
  by_cases h65 : nn = 0x65
  · rw [h65, misc_65] at h; cases h; exact ⟨rfl, rfl, rfl, Or.inl rfl, fun _ => rfl⟩
  by_cases h75 : nn = 0x75
  · rw [h75, misc_75] at h; cases h
    exact ⟨rfl, rfl, rfl, Or.inl rfl, fun hne => absurd h75 hne⟩
  by_cases h85 : nn = 0x85
  · rw [h85, misc_85] at h; cases h; exact ⟨rfl, rfl, rfl, Or.inl rfl, fun _ => rfl⟩
  rw [misc_default x nn s h07 h0A h15 h18 h1E h29 h30 h33 h55 h65 h75 h85] at h
  cases h
  exact ⟨rfl, rfl, rfl, Or.inl rfl, fun _ => rfl⟩

/-! ### Branch reduction for `_exec` -/

lemma hi_nonzero_ne (op : Nat) (h : opHi op ≠ 0) :
    op ≠ 0x00E0 ∧ op ≠ 0x00EE ∧ op ≠ 0x00FB ∧ op ≠ 0x00FC ∧ op ≠ 0x00FD ∧
    op ≠ 0x00FE ∧ op ≠ 0x00FF ∧ ¬(opHi op = 0 ∧ op &&& 0xF0 = 0xC0) := by
  refine ⟨?_, ?_, ?_, ?_, ?_, ?_, ?_, ?_⟩
  · rintro rfl; exact h (by decide)
  · rintro rfl; exact h (by decide)
  · rintro rfl; exact h (by decide)
  · rintro rfl; exact h (by decide)
  · rintro rfl; exact h (by decide)
  · rintro rfl; exact h (by decide)
  · rintro rfl; exact h (by decide)
  · rintro ⟨h0, -⟩; exact h h0

lemma exec_00E0 (rnd op : Nat) (s : Machine) (h : op = 0x00E0) :
    CPU.exec rnd op s =
      (if s.hires then
        .ok { s with gfx_hi := clearPlane SCHIP_HEIGHT SCHIP_WIDTH s.gfx_hi,
                     draw_flag := true, PC := s.PC + 2 }
      else
        .ok { s with gfx := clearPlane CHIP8_HEIGHT CHIP8_WIDTH s.gfx,
                     draw_flag := true, PC := s.PC + 2 }) := by
  subst h; rfl

lemma exec_00EE (rnd op : Nat) (s : Machine) (h : op = 0x00EE) :
    CPU.exec rnd op s =
      (if -16 ≤ s.SP - 1 ∧ s.SP - 1 < 16 then
        .ok { s with SP := s.SP - 1, PC := s.stack (stackIdx (s.SP - 1)) + 2 }
      else .error { s with SP := s.SP - 1 }) := by
  subst h; rfl

lemma exec_00FB (rnd op : Nat) (s : Machine) (h : op = 0x00FB) :
    CPU.exec rnd op s =
      (if s.hires then
        .ok { s with gfx_hi := scrollRight SCHIP_HEIGHT SCHIP_WIDTH s.gfx_hi,
                     draw_flag := true, PC := s.PC + 2 }
      else
        .ok { s with gfx := scrollRight CHIP8_HEIGHT CHIP8_WIDTH s.gfx,
                     draw_flag := true, PC := s.PC + 2 }) := by
  subst h; rfl

lemma exec_00FC (rnd op : Nat) (s : Machine) (h : op = 0x00FC) :
    CPU.exec rnd op s =
      (if s.hires then
        .ok { s with gfx_hi := scrollLeft SCHIP_HEIGHT SCHIP_WIDTH s.gfx_hi,
                     draw_flag := true, PC := s.PC + 2 }
      else
        .ok { s with gfx := scrollLeft CHIP8_HEIGHT CHIP8_WIDTH s.gfx,
                     draw_flag := true, PC := s.PC + 2 }) := by
  subst h; rfl

lemma exec_00FD (rnd op : Nat) (s : Machine) (h : op = 0x00FD) :
    CPU.exec rnd op s = .ok { s with halted := true } := by
  subst h; rfl

lemma exec_00FE (rnd op : Nat) (s : Machine) (h : op = 0x00FE) :
    CPU.exec rnd op s = .ok { s with hires := false, PC := s.PC + 2 } := by
  subst h; rfl

lemma exec_00FF (rnd op : Nat) (s : Machine) (h : op = 0x00FF) :
    CPU.exec rnd op s = .ok { s with hires := true, PC := s.PC + 2 } := by
  subst h; rfl

lemma exec_scd (rnd op : Nat) (s : Machine)
    (h0 : opHi op = 0) (hC : op &&& 0xF0 = 0xC0) :
    CPU.exec rnd op s =
      (if s.hires then
        .ok { s with gfx_hi := scrollDown (opN op) SCHIP_HEIGHT SCHIP_WIDTH s.gfx_hi,
                     draw_flag := true, PC := s.PC + 2 }
      else
        .ok { s with gfx := scrollDown (opN op) CHIP8_HEIGHT CHIP8_WIDTH s.gfx,
                     draw_flag := true, PC := s.PC + 2 }) := by
  have a1 : op ≠ 0x00E0 := by rintro rfl; exact absurd hC (by decide)
  have a2 : op ≠ 0x00EE := by rintro rfl; exact absurd hC (by decide)
  have a3 : op ≠ 0x00FB := by rintro rfl; exact absurd hC (by decide)
  have a4 : op ≠ 0x00FC := by rintro rfl; exact absurd hC (by decide)
  have a5 : op ≠ 0x00FD := by rintro rfl; exact absurd hC (by decide)
  have a6 : op ≠ 0x00FE := by rintro rfl; exact absurd hC (by decide)
  have a7 : op ≠ 0x00FF := by rintro rfl; exact absurd hC (by decide)
  unfold CPU.exec
  rw [if_neg a1, if_neg a2, if_neg a3, if_neg a4, if_neg a5, if_neg a6,
      if_neg a7, if_pos ⟨h0, hC⟩]

lemma exec_sys (rnd op : Nat) (s : Machine)
    (a1 : op ≠ 0x00E0) (a2 : op ≠ 0x00EE) (a3 : op ≠ 0x00FB)
    (a4 : op ≠ 0x00FC) (a5 : op ≠ 0x00FD) (a6 : op ≠ 0x00FE)
    (a7 : op ≠ 0x00FF) (h0 : opHi op = 0) (hC : op &&& 0xF0 ≠ 0xC0) :
    CPU.exec rnd op s = .ok { s with PC := s.PC + 2 } := by
  unfold CPU.exec
  rw [if_neg a1, if_neg a2, if_neg a3, if_neg a4, if_neg a5, if_neg a6,
      if_neg a7, if_neg (by rintro ⟨-, hc⟩; exact hC hc), if_pos h0]

lemma exec_jp (rnd op : Nat) (s : Machine) (h : opHi op = 1) :
    CPU.exec rnd op s = .ok { s with PC := opNNN op } := by
  obtain ⟨a1, a2, a3, a4, a5, a6, a7, a8⟩ := hi_nonzero_ne op (by omega)
  unfold CPU.exec
  rw [if_neg a1, if_neg a2, if_neg a3, if_neg a4, if_neg a5, if_neg a6,
      if_neg a7, if_neg a8, if_neg (by omega : ¬opHi op = 0), if_pos h]

lemma exec_call (rnd op : Nat) (s : Machine) (h : opHi op = 2) :
    CPU.exec rnd op s =
      (if -16 ≤ s.SP ∧ s.SP < 16 then
        .ok { s with stack := upd s.stack (stackIdx s.SP) s.PC,
                     SP := s.SP + 1, PC := opNNN op }
      else .error s) := by
  obtain ⟨a1, a2, a3, a4, a5, a6, a7, a8⟩ := hi_nonzero_ne op (by omega)
  unfold CPU.exec
  rw [if_neg a1, if_neg a2, if_neg a3, if_neg a4, if_neg a5, if_neg a6,
      if_neg a7, if_neg a8, if_neg (by omega : ¬opHi op = 0),
      if_neg (by omega : ¬opHi op = 1), if_pos h]

lemma exec_sei (rnd op : Nat) (s : Machine) (h : opHi op = 3) :
    CPU.exec rnd op s =
      .ok { s with PC := s.PC + (if s.V (opX op) = opNN op then 4 else 2) } := by
  obtain ⟨a1, a2, a3, a4, a5, a6, a7, a8⟩ := hi_nonzero_ne op (by omega)
  unfold CPU.exec
  rw [if_neg a1, if_neg a2, if_neg a3, if_neg a4, if_neg a5, if_neg a6,
      if_neg a7, if_neg a8, if_neg (by omega : ¬opHi op = 0),
      if_neg (by omega : ¬opHi op = 1), if_neg (by omega : ¬opHi op = 2),
      if_pos h]

lemma exec_snei (rnd op : Nat) (s : Machine) (h : opHi op = 4) :
    CPU.exec rnd op s =
      .ok { s with PC := s.PC + (if s.V (opX op) ≠ opNN op then 4 else 2) } := by
  obtain ⟨a1, a2, a3, a4, a5, a6, a7, a8⟩ := hi_nonzero_ne op (by omega)
  unfold CPU.exec
  rw [if_neg a1, if_neg a2, if_neg a3, if_neg a4, if_neg a5, if_neg a6,
      if_neg a7, if_neg a8, if_neg (by omega : ¬opHi op = 0),
      if_neg (by omega : ¬opHi op = 1), if_neg (by omega : ¬opHi op = 2),
      if_neg (by omega : ¬opHi op = 3), if_pos h]

lemma exec_sereg (rnd op : Nat) (s : Machine) (h : opHi op = 5)
    (hn : opN op = 0) :
    CPU.exec rnd op s =
      .ok { s with PC := s.PC + (if s.V (opX op) = s.V (opY op) then 4 else 2) } := by
  obtain ⟨a1, a2, a3, a4, a5, a6, a7, a8⟩ := hi_nonzero_ne op (by omega)
  unfold CPU.exec
  rw [if_neg a1, if_neg a2, if_neg a3, if_neg a4, if_neg a5, if_neg a6,
      if_neg a7, if_neg a8, if_neg (by omega : ¬opHi op = 0),
      if_neg (by omega : ¬opHi op = 1), if_neg (by omega : ¬opHi op = 2),
      if_neg (by omega : ¬opHi op = 3), if_neg (by omega : ¬opHi op = 4),
      if_pos ⟨h, hn⟩]

lemma exec_se5else (rnd op : Nat) (s : Machine) (h : opHi op = 5)
    (hn : opN op ≠ 0) :
    CPU.exec rnd op s = .ok { s with PC := s.PC + 2 } := by
  obtain ⟨a1, a2, a3, a4, a5, a6, a7, a8⟩ := hi_nonzero_ne op (by omega)
  unfold CPU.exec
  rw [if_neg a1, if_neg a2, if_neg a3, if_neg a4, if_neg a5, if_neg a6,
      if_neg a7, if_neg a8, if_neg (by omega : ¬opHi op = 0),
      if_neg (by omega : ¬opHi op = 1), if_neg (by omega : ¬opHi op = 2),
      if_neg (by omega : ¬opHi op = 3), if_neg (by omega : ¬opHi op = 4),
      if_neg (by rintro ⟨-, hz⟩; exact hn hz),
      if_neg (by omega : ¬opHi op = 6), if_neg (by omega : ¬opHi op = 7),
      if_neg (by omega : ¬opHi op = 8),
      if_neg (by rintro ⟨h9, -⟩; omega),
      if_neg (by omega : ¬opHi op = 0xA), if_neg (by omega : ¬opHi op = 0xB),
      if_neg (by omega : ¬opHi op = 0xC), if_neg (by omega : ¬opHi op = 0xD),
      if_neg (by omega : ¬opHi op = 0xE), if_neg (by omega : ¬opHi op = 0xF)]

lemma exec_ldi (rnd op : Nat) (s : Machine) (h : opHi op = 6) :
    CPU.exec rnd op s =
      .ok { s with V := upd s.V (opX op) (opNN op), PC := s.PC + 2 } := by
  obtain ⟨a1, a2, a3, a4, a5, a6, a7, a8⟩ := hi_nonzero_ne op (by omega)
  unfold CPU.exec
  rw [if_neg a1, if_neg a2, if_neg a3, if_neg a4, if_neg a5, if_neg a6,
      if_neg a7, if_neg a8, if_neg (by omega : ¬opHi op = 0),
      if_neg (by omega : ¬opHi op = 1), if_neg (by omega : ¬opHi op = 2),
      if_neg (by omega : ¬opHi op = 3), if_neg (by omega : ¬opHi op = 4),
      if_neg (by rintro ⟨h5, -⟩; omega), if_pos h]

lemma exec_addi (rnd op : Nat) (s : Machine) (h : opHi op = 7) :
    CPU.exec rnd op s =
      .ok { s with V := upd s.V (opX op) ((s.V (opX op) + opNN op) &&& 0xFF),
                   PC := s.PC + 2 } := by
  obtain ⟨a1, a2, a3, a4, a5, a6, a7, a8⟩ := hi_nonzero_ne op (by omega)
  unfold CPU.exec
  rw [if_neg a1, if_neg a2, if_neg a3, if_neg a4, if_neg a5, if_neg a6,
      if_neg a7, if_neg a8, if_neg (by omega : ¬opHi op = 0),
      if_neg (by omega : ¬opHi op = 1), if_neg (by omega : ¬opHi op = 2),
      if_neg (by omega : ¬opHi op = 3), if_neg (by omega : ¬opHi op = 4),
      if_neg (by rintro ⟨h5, -⟩; omega), if_neg (by omega : ¬opHi op = 6),
      if_pos h]

lemma exec_alu8 (rnd op : Nat) (s : Machine) (h : opHi op = 8) :
    CPU.exec rnd op s =
      .ok { s with V := CPU.alu (opX op) (opY op) (opN op) s.V,
                   PC := s.PC + 2 } := by
  obtain ⟨a1, a2, a3, a4, a5, a6, a7, a8⟩ := hi_nonzero_ne op (by omega)
  unfold CPU.exec
  rw [if_neg a1, if_neg a2, if_neg a3, if_neg a4, if_neg a5, if_neg a6,
      if_neg a7, if_neg a8, if_neg (by omega : ¬opHi op = 0),
      if_neg (by omega : ¬opHi op = 1), if_neg (by omega : ¬opHi op = 2),
      if_neg (by omega : ¬opHi op = 3), if_neg (by omega : ¬opHi op = 4),
      if_neg (by rintro ⟨h5, -⟩; omega), if_neg (by omega : ¬opHi op = 6),
      if_neg (by omega : ¬opHi op = 7), if_pos h]

lemma exec_snereg (rnd op : Nat) (s : Machine) (h : opHi op = 9)
    (hn : opN op = 0) :
    CPU.exec rnd op s =
      .ok { s with PC := s.PC + (if s.V (opX op) ≠ s.V (opY op) then 4 else 2) } := by
  obtain ⟨a1, a2, a3, a4, a5, a6, a7, a8⟩ := hi_nonzero_ne op (by omega)
  unfold CPU.exec
  rw [if_neg a1, if_neg a2, if_neg a3, if_neg a4, if_neg a5, if_neg a6,
      if_neg a7, if_neg a8, if_neg (by omega : ¬opHi op = 0),
      if_neg (by omega : ¬opHi op = 1), if_neg (by omega : ¬opHi op = 2),
      if_neg (by omega : ¬opHi op = 3), if_neg (by omega : ¬opHi op = 4),
      if_neg (by rintro ⟨h5, -⟩; omega), if_neg (by omega : ¬opHi op = 6),
      if_neg (by omega : ¬opHi op = 7), if_neg (by omega : ¬opHi op = 8),
      if_pos ⟨h, hn⟩]

lemma exec_sne9else (rnd op : Nat) (s : Machine) (h : opHi op = 9)
    (hn : opN op ≠ 0) :
    CPU.exec rnd op s = .ok { s with PC := s.PC + 2 } := by
  obtain ⟨a1, a2, a3, a4, a5, a6, a7, a8⟩ := hi_nonzero_ne op (by omega)
  unfold CPU.exec
  rw [if_neg a1, if_neg a2, if_neg a3, if_neg a4, if_neg a5, if_neg a6,
      if_neg a7, if_neg a8, if_neg (by omega : ¬opHi op = 0),
      if_neg (by omega : ¬opHi op = 1), if_neg (by omega : ¬opHi op = 2),
      if_neg (by omega : ¬opHi op = 3), if_neg (by omega : ¬opHi op = 4),
      if_neg (by rintro ⟨h5, -⟩; omega), if_neg (by omega : ¬opHi op = 6),
      if_neg (by omega : ¬opHi op = 7), if_neg (by omega : ¬opHi op = 8),
      if_neg (by rintro ⟨-, hz⟩; exact hn hz),
      if_neg (by omega : ¬opHi op = 0xA), if_neg (by omega : ¬opHi op = 0xB),
      if_neg (by omega : ¬opHi op = 0xC), if_neg (by omega : ¬opHi op = 0xD),
      if_neg (by omega : ¬opHi op = 0xE), if_neg (by omega : ¬opHi op = 0xF)]

lemma exec_ldI (rnd op : Nat) (s : Machine) (h : opHi op = 0xA) :
    CPU.exec rnd op s = .ok { s with I := opNNN op, PC := s.PC + 2 } := by
  obtain ⟨a1, a2, a3, a4, a5, a6, a7, a8⟩ := hi_nonzero_ne op (by omega)
  unfold CPU.exec
  rw [if_neg a1, if_neg a2, if_neg a3, if_neg a4, if_neg a5, if_neg a6,
      if_neg a7, if_neg a8, if_neg (by omega : ¬opHi op = 0),
      if_neg (by omega : ¬opHi op = 1), if_neg (by omega : ¬opHi op = 2),
      if_neg (by omega : ¬opHi op = 3), if_neg (by omega : ¬opHi op = 4),
      if_neg (by rintro ⟨h5, -⟩; omega), if_neg (by omega : ¬opHi op = 6),
      if_neg (by omega : ¬opHi op = 7), if_neg (by omega : ¬opHi op = 8),
      if_neg (by rintro ⟨h9, -⟩; omega), if_pos h]

lemma exec_jpv0 (rnd op : Nat) (s : Machine) (h : opHi op = 0xB) :
    CPU.exec rnd op s = .ok { s with PC := opNNN op + s.V 0 } := by
  obtain ⟨a1, a2, a3, a4, a5, a6, a7, a8⟩ := hi_nonzero_ne op (by omega)
  unfold CPU.exec
  rw [if_neg a1, if_neg a2, if_neg a3, if_neg a4, if_neg a5, if_neg a6,
      if_neg a7, if_neg a8, if_neg (by omega : ¬opHi op = 0),
      if_neg (by omega : ¬opHi op = 1), if_neg (by omega : ¬opHi op = 2),
      if_neg (by omega : ¬opHi op = 3), if_neg (by omega : ¬opHi op = 4),
      if_neg (by rintro ⟨h5, -⟩; omega), if_neg (by omega : ¬opHi op = 6),
      if_neg (by omega : ¬opHi op = 7), if_neg (by omega : ¬opHi op = 8),
      if_neg (by rintro ⟨h9, -⟩; omega), if_neg (by omega : ¬opHi op = 0xA),
      if_pos h]

lemma exec_rand (rnd op : Nat) (s : Machine) (h : opHi op = 0xC) :
    CPU.exec rnd op s =
      .ok { s with V := upd s.V (opX op) ((rnd % 256) &&& opNN op),
                   PC := s.PC + 2 } := by
  obtain ⟨a1, a2, a3, a4, a5, a6, a7, a8⟩ := hi_nonzero_ne op (by omega)
  unfold CPU.exec
  rw [if_neg a1, if_neg a2, if_neg a3, if_neg a4, if_neg a5, if_neg a6,
      if_neg a7, if_neg a8, if_neg (by omega : ¬opHi op = 0),
      if_neg (by omega : ¬opHi op = 1), if_neg (by omega : ¬opHi op = 2),
      if_neg (by omega : ¬opHi op = 3), if_neg (by omega : ¬opHi op = 4),
      if_neg (by rintro ⟨h5, -⟩; omega), if_neg (by omega : ¬opHi op = 6),
      if_neg (by omega : ¬opHi op = 7), if_neg (by omega : ¬opHi op = 8),
      if_neg (by rintro ⟨h9, -⟩; omega), if_neg (by omega : ¬opHi op = 0xA),
      if_neg (by omega : ¬opHi op = 0xB), if_pos h]

lemma exec_drw (rnd op : Nat) (s : Machine) (h : opHi op = 0xD) :
    CPU.exec rnd op s =
      .ok { CPU.draw (opX op) (opY op) (opN op) s with
            PC := (CPU.draw (opX op) (opY op) (opN op) s).PC + 2 } := by
  obtain ⟨a1, a2, a3, a4, a5, a6, a7, a8⟩ := hi_nonzero_ne op (by omega)
  unfold CPU.exec
  rw [if_neg a1, if_neg a2, if_neg a3, if_neg a4, if_neg a5, if_neg a6,
      if_neg a7, if_neg a8, if_neg (by omega : ¬opHi op = 0),
      if_neg (by omega : ¬opHi op = 1), if_neg (by omega : ¬opHi op = 2),
      if_neg (by omega : ¬opHi op = 3), if_neg (by omega : ¬opHi op = 4),
      if_neg (by rintro ⟨h5, -⟩; omega), if_neg (by omega : ¬opHi op = 6),
      if_neg (by omega : ¬opHi op = 7), if_neg (by omega : ¬opHi op = 8),
      if_neg (by rintro ⟨h9, -⟩; omega), if_neg (by omega : ¬opHi op = 0xA),
      if_neg (by omega : ¬opHi op = 0xB), if_neg (by omega : ¬opHi op = 0xC),
      if_pos h]

lemma exec_keyops (rnd op : Nat) (s : Machine) (h : opHi op = 0xE) :
    CPU.exec rnd op s =
      (if opNN op = 0x9E then
        .ok { s with PC := s.PC +
          (if s.keys (s.V (opX op) &&& 0xF) ≠ 0 then 4 else 2) }
      else if opNN op = 0xA1 then
        .ok { s with PC := s.PC +
          (if s.keys (s.V (opX op) &&& 0xF) = 0 then 4 else 2) }
      else .ok { s with PC := s.PC + 2 }) := by
  obtain ⟨a1, a2, a3, a4, a5, a6, a7, a8⟩ := hi_nonzero_ne op (by omega)
  unfold CPU.exec
  rw [if_neg a1, if_neg a2, if_neg a3, if_neg a4, if_neg a5, if_neg a6,
      if_neg a7, if_neg a8, if_neg (by omega : ¬opHi op = 0),
      if_neg (by omega : ¬opHi op = 1), if_neg (by omega : ¬opHi op = 2),
      if_neg (by omega : ¬opHi op = 3), if_neg (by omega : ¬opHi op = 4),
      if_neg (by rintro ⟨h5, -⟩; omega), if_neg (by omega : ¬opHi op = 6),
      if_neg (by omega : ¬opHi op = 7), if_neg (by omega : ¬opHi op = 8),
      if_neg (by rintro ⟨h9, -⟩; omega), if_neg (by omega : ¬opHi op = 0xA),
      if_neg (by omega : ¬opHi op = 0xB), if_neg (by omega : ¬opHi op = 0xC),
      if_neg (by omega : ¬opHi op = 0xD), if_pos h]

lemma exec_fx (rnd op : Nat) (s : Machine) (h : opHi op = 0xF) :
    CPU.exec rnd op s = CPU.misc (opX op) (opNN op) s := by
  obtain ⟨a1, a2, a3, a4, a5, a6, a7, a8⟩ := hi_nonzero_ne op (by omega)
  unfold CPU.exec
  rw [if_neg a1, if_neg a2, if_neg a3, if_neg a4, if_neg a5, if_neg a6,
      if_neg a7, if_neg a8, if_neg (by omega : ¬opHi op = 0),
      if_neg (by omega : ¬opHi op = 1), if_neg (by omega : ¬opHi op = 2),
      if_neg (by omega : ¬opHi op = 3), if_neg (by omega : ¬opHi op = 4),
      if_neg (by rintro ⟨h5, -⟩; omega), if_neg (by omega : ¬opHi op = 6),
      if_neg (by omega : ¬opHi op = 7), if_neg (by omega : ¬opHi op = 8),
      if_neg (by rintro ⟨h9, -⟩; omega), if_neg (by omega : ¬opHi op = 0xA),
      if_neg (by omega : ¬opHi op = 0xB), if_neg (by omega : ¬opHi op = 0xC),
      if_neg (by omega : ¬opHi op = 0xD), if_neg (by omega : ¬opHi op = 0xE),
      if_pos h]


lemma opHi_lt (op : Nat) : opHi op < 16 :=
  lt_of_le_of_lt (Nat.and_le_right) (by norm_num)

lemma updV_lt {V : Nat → Nat} (hV : ∀ i, i < 16 → V i < 256) (x v : Nat)
    (hv : v < 256) : ∀ i, i < 16 → upd V x v i < 256 := by
  intro i hi
  rw [upd_apply]
  split_ifs
  · exact hv
  · exact hV i hi

/-- Totality of `_exec` away from the three genuine crash sites (CALL with a
full stack, FX33 with `I + 2` past the end of memory; the fetch is checked by
`step` itself). -/
lemma execTotal (rnd op : Nat) (s : Machine)
    (hV : ∀ i, i < 16 → s.V i < 256)
    (hSP0 : 0 ≤ s.SP) (hSP1 : s.SP ≤ 16)
    (hcall : opHi op = 2 → s.SP < 16)
    (hbcd : opHi op = 0xF → opNN op = 0x33 → s.I + 2 < 4096) :
    (CPU.exec rnd op s).isOk = true := by
  by_cases hE0 : op = 0x00E0
  · rw [exec_00E0 rnd op s hE0]; split_ifs <;> rfl
  by_cases hEE : op = 0x00EE
  · rw [exec_00EE rnd op s hEE, if_pos ⟨by omega, by omega⟩]; rfl
  by_cases hFB : op = 0x00FB
  · rw [exec_00FB rnd op s hFB]; split_ifs <;> rfl
  by_cases hFC : op = 0x00FC
  · rw [exec_00FC rnd op s hFC]; split_ifs <;> rfl
  by_cases hFD : op = 0x00FD
  · rw [exec_00FD rnd op s hFD]; rfl
  by_cases hFE : op = 0x00FE
  · rw [exec_00FE rnd op s hFE]; rfl
  by_cases hFF : op = 0x00FF
  · rw [exec_00FF rnd op s hFF]; rfl
  by_cases h0 : opHi op = 0
  · by_cases hC : op &&& 0xF0 = 0xC0
    · rw [exec_scd rnd op s h0 hC]; split_ifs <;> rfl
    · rw [exec_sys rnd op s hE0 hEE hFB hFC hFD hFE hFF h0 hC]; rfl
  by_cases h1 : opHi op = 1
  · rw [exec_jp rnd op s h1]; rfl
  by_cases h2 : opHi op = 2
  · rw [exec_call rnd op s h2, if_pos ⟨by omega, hcall h2⟩]; rfl
  by_cases h3 : opHi op = 3
  · rw [exec_sei rnd op s h3]; rfl
  by_cases h4 : opHi op = 4
  · rw [exec_snei rnd op s h4]; rfl
  by_cases h5 : opHi op = 5
  · by_cases hn : opN op = 0
    · rw [exec_sereg rnd op s h5 hn]; rfl
    · rw [exec_se5else rnd op s h5 hn]; rfl
  by_cases h6 : opHi op = 6
  · rw [exec_ldi rnd op s h6]; rfl
  by_cases h7 : opHi op = 7
  · rw [exec_addi rnd op s h7]; rfl
  by_cases h8 : opHi op = 8
  · rw [exec_alu8 rnd op s h8]; rfl
  by_cases h9 : opHi op = 9
  · by_cases hn : opN op = 0
    · rw [exec_snereg rnd op s h9 hn]; rfl
    · rw [exec_sne9else rnd op s h9 hn]; rfl
  by_cases hA : opHi op = 0xA
  · rw [exec_ldI rnd op s hA]; rfl
  by_cases hB : opHi op = 0xB
  · rw [exec_jpv0 rnd op s hB]; rfl
  by_cases hCC : opHi op = 0xC
  · rw [exec_rand rnd op s hCC]; rfl
  by_cases hD : opHi op = 0xD
  · rw [exec_drw rnd op s hD]; rfl
  by_cases hE : opHi op = 0xE
  · rw [exec_keyops rnd op s hE]; split_ifs <;> rfl
  by_cases hF : opHi op = 0xF
  · rw [exec_fx rnd op s hF]
    exact miscTotal (opX op) (opNN op) s (opX_lt op) hV (hbcd hF)
  exact absurd (opHi_lt op) (by omega)


/-- Register-file bounds after a successful `_exec` from a well-formed state:
`V` stays byte-valued and `I` 16-bit, but `PC` can reach `4350 = 0xFFF + 0xFF`
(via `BNNN`) and `SP` can reach `-1` (via `RET` at `SP = 0`). -/
lemma execBounds (rnd op : Nat) (s t : Machine)
    (hV : ∀ i, i < 16 → s.V i < 256) (hI : s.I < 65536) (hPC : s.PC < 4096)
    (hSP0 : 0 ≤ s.SP) (hSP1 : s.SP ≤ 16)
    (hmem : ∀ i, i < 4096 → s.mem i < 256) (hDT : s.DT < 256)
    (hstack : ∀ i, i < 16 → s.stack i ≤ 4094)
    (hrpl : ∀ i, i < 8 → s.rpl i < 256)
    (h : CPU.exec rnd op s = .ok t) :
    (∀ i, i < 16 → t.V i < 256) ∧ t.I < 65536 ∧ t.PC ≤ 4350 ∧
    -1 ≤ t.SP ∧ t.SP ≤ 16 := by
  by_cases hE0 : op = 0x00E0
  · rw [exec_00E0 rnd op s hE0] at h
    split_ifs at h <;> cases h <;>
      exact ⟨hV, hI, (by omega : s.PC + 2 ≤ 4350),
        (by omega : (-1 : Int) ≤ s.SP), (by omega : s.SP ≤ 16)⟩
  by_cases hEE : op = 0x00EE
  · rw [exec_00EE rnd op s hEE] at h
    split_ifs at h
    · cases h
      have hsi := hstack (stackIdx (s.SP - 1)) (stackIdx_lt _)
      exact ⟨hV, hI, (by omega : s.stack (stackIdx (s.SP - 1)) + 2 ≤ 4350),
        (by omega : (-1 : Int) ≤ s.SP - 1), (by omega : s.SP - 1 ≤ 16)⟩
  by_cases hFB : op = 0x00FB
  · rw [exec_00FB rnd op s hFB] at h
    split_ifs at h <;> cases h <;>
      exact ⟨hV, hI, (by omega : s.PC + 2 ≤ 4350),
        (by omega : (-1 : Int) ≤ s.SP), (by omega : s.SP ≤ 16)⟩
  by_cases hFC : op = 0x00FC
  · rw [exec_00FC rnd op s hFC] at h
    split_ifs at h <;> cases h <;>
      exact ⟨hV, hI, (by omega : s.PC + 2 ≤ 4350),
        (by omega : (-1 : Int) ≤ s.SP), (by omega : s.SP ≤ 16)⟩
  by_cases hFD : op = 0x00FD
  · rw [exec_00FD rnd op s hFD] at h
    cases h
    exact ⟨hV, hI, (by omega : s.PC ≤ 4350),
      (by omega : (-1 : Int) ≤ s.SP), (by omega : s.SP ≤ 16)⟩
  by_cases hFE : op = 0x00FE
  · rw [exec_00FE rnd op s hFE] at h
    cases h
    exact ⟨hV, hI, (by omega : s.PC + 2 ≤ 4350),
      (by omega : (-1 : Int) ≤ s.SP), (by omega : s.SP ≤ 16)⟩
  by_cases hFF : op = 0x00FF
  · rw [exec_00FF rnd op s hFF] at h
    cases h
    exact ⟨hV, hI, (by omega : s.PC + 2 ≤ 4350),
      (by omega : (-1 : Int) ≤ s.SP), (by omega : s.SP ≤ 16)⟩
  by_cases h0 : opHi op = 0
  · by_cases hC : op &&& 0xF0 = 0xC0
    · rw [exec_scd rnd op s h0 hC] at h
      split_ifs at h <;> cases h <;>
        exact ⟨hV, hI, (by omega : s.PC + 2 ≤ 4350),
          (by omega : (-1 : Int) ≤ s.SP), (by omega : s.SP ≤ 16)⟩
    · rw [exec_sys rnd op s hE0 hEE hFB hFC hFD hFE hFF h0 hC] at h
      cases h
      exact ⟨hV, hI, (by omega : s.PC + 2 ≤ 4350),
        (by omega : (-1 : Int) ≤ s.SP), (by omega : s.SP ≤ 16)⟩
  by_cases h1 : opHi op = 1
  · rw [exec_jp rnd op s h1] at h
    cases h
    have := opNNN_lt op
    exact ⟨hV, hI, (by omega : opNNN op ≤ 4350),
      (by omega : (-1 : Int) ≤ s.SP), (by omega : s.SP ≤ 16)⟩
  by_cases h2 : opHi op = 2
  · rw [exec_call rnd op s h2] at h
    split_ifs at h with hsp
    · cases h
      have := opNNN_lt op
      exact ⟨hV, hI, (by omega : opNNN op ≤ 4350),
        (by omega : (-1 : Int) ≤ s.SP + 1), (by omega : s.SP + 1 ≤ 16)⟩
  by_cases h3 : opHi op = 3
  · rw [exec_sei rnd op s h3] at h
    cases h
    exact ⟨hV, hI,
      (by split_ifs <;> omega :
        s.PC + (if s.V (opX op) = opNN op then 4 else 2) ≤ 4350),
      (by omega : (-1 : Int) ≤ s.SP), (by omega : s.SP ≤ 16)⟩
  by_cases h4 : opHi op = 4
  · rw [exec_snei rnd op s h4] at h
    cases h
    exact ⟨hV, hI,
      (by split_ifs <;> omega :
        s.PC + (if s.V (opX op) ≠ opNN op then 4 else 2) ≤ 4350),
      (by omega : (-1 : Int) ≤ s.SP), (by omega : s.SP ≤ 16)⟩
  by_cases h5 : opHi op = 5
  · by_cases hn : opN op = 0
    · rw [exec_sereg rnd op s h5 hn] at h
      cases h
      exact ⟨hV, hI,
        (by split_ifs <;> omega :
          s.PC + (if s.V (opX op) = s.V (opY op) then 4 else 2) ≤ 4350),
        (by omega : (-1 : Int) ≤ s.SP), (by omega : s.SP ≤ 16)⟩
    · rw [exec_se5else rnd op s h5 hn] at h
      cases h
      exact ⟨hV, hI, (by omega : s.PC + 2 ≤ 4350),
        (by omega : (-1 : Int) ≤ s.SP), (by omega : s.SP ≤ 16)⟩
  by_cases h6 : opHi op = 6
  · rw [exec_ldi rnd op s h6] at h
    cases h
    exact ⟨updV_lt hV _ _ (opNN_lt op), hI, (by omega : s.PC + 2 ≤ 4350),
      (by omega : (-1 : Int) ≤ s.SP), (by omega : s.SP ≤ 16)⟩
  by_cases h7 : opHi op = 7
  · rw [exec_addi rnd op s h7] at h
    cases h
    exact ⟨updV_lt hV _ _ (mask255_lt _), hI, (by omega : s.PC + 2 ≤ 4350),
      (by omega : (-1 : Int) ≤ s.SP), (by omega : s.SP ≤ 16)⟩
  by_cases h8 : opHi op = 8
  · rw [exec_alu8 rnd op s h8] at h
    cases h
    exact ⟨aluV_lt _ _ _ _ (opX_lt op) (opY_lt op) hV, hI,
      (by omega : s.PC + 2 ≤ 4350),
      (by omega : (-1 : Int) ≤ s.SP), (by omega : s.SP ≤ 16)⟩
  by_cases h9 : opHi op = 9
  · by_cases hn : opN op = 0
    · rw [exec_snereg rnd op s h9 hn] at h
      cases h
      exact ⟨hV, hI,
        (by split_ifs <;> omega :
          s.PC + (if s.V (opX op) ≠ s.V (opY op) then 4 else 2) ≤ 4350),
        (by omega : (-1 : Int) ≤ s.SP), (by omega : s.SP ≤ 16)⟩
    · rw [exec_sne9else rnd op s h9 hn] at h
      cases h
      exact ⟨hV, hI, (by omega : s.PC + 2 ≤ 4350),
        (by omega : (-1 : Int) ≤ s.SP), (by omega : s.SP ≤ 16)⟩
  by_cases hA : opHi op = 0xA
  · rw [exec_ldI rnd op s hA] at h
    cases h
    have := opNNN_lt op
    exact ⟨hV, (by omega : opNNN op < 65536), (by omega : s.PC + 2 ≤ 4350),
      (by omega : (-1 : Int) ≤ s.SP), (by omega : s.SP ≤ 16)⟩
  by_cases hB : opHi op = 0xB
  · rw [exec_jpv0 rnd op s hB] at h
    cases h
    have h1 := opNNN_lt op
    have h2 := hV 0 (by omega)
    exact ⟨hV, hI, (by omega : opNNN op + s.V 0 ≤ 4350),
      (by omega : (-1 : Int) ≤ s.SP), (by omega : s.SP ≤ 16)⟩
  by_cases hCC : opHi op = 0xC
  · rw [exec_rand rnd op s hCC] at h
    cases h
    exact ⟨updV_lt hV _ _ (lt_of_le_of_lt Nat.and_le_right (opNN_lt op)), hI,
      (by omega : s.PC + 2 ≤ 4350),
      (by omega : (-1 : Int) ≤ s.SP), (by omega : s.SP ≤ 16)⟩
  by_cases hD : opHi op = 0xD
  · rw [exec_drw rnd op s hD] at h
    cases h
    obtain ⟨vf, hvf, hdV⟩ := draw_V (opX op) (opY op) (opN op) s
    obtain ⟨hdm, hdI, hdPC, hdstack, hdSP, hdrest⟩ :=
      draw_frame (opX op) (opY op) (opN op) s
    refine ⟨fun i hi => ?_, ?_, ?_, ?_, ?_⟩
    · show (CPU.draw (opX op) (opY op) (opN op) s).V i < 256
      rw [hdV, upd_apply]
      split_ifs
      · omega
      · exact hV i hi
    · show (CPU.draw (opX op) (opY op) (opN op) s).I < 65536
      rw [hdI]; exact hI
    · show (CPU.draw (opX op) (opY op) (opN op) s).PC + 2 ≤ 4350
      rw [hdPC]; omega
    · show (-1 : Int) ≤ (CPU.draw (opX op) (opY op) (opN op) s).SP
      rw [hdSP]; omega
    · show (CPU.draw (opX op) (opY op) (opN op) s).SP ≤ 16
      rw [hdSP]; omega
  by_cases hE : opHi op = 0xE
  · rw [exec_keyops rnd op s hE] at h
    split_ifs at h <;> cases h <;>
      first
        | exact ⟨hV, hI, (by omega : s.PC + 4 ≤ 4350),
            (by omega : (-1 : Int) ≤ s.SP), (by omega : s.SP ≤ 16)⟩
        | exact ⟨hV, hI, (by omega : s.PC + 2 ≤ 4350),
            (by omega : (-1 : Int) ≤ s.SP), (by omega : s.SP ≤ 16)⟩
  by_cases hF : opHi op = 0xF
  · rw [exec_fx rnd op s hF] at h
    obtain ⟨tV, tI, tPC, tSP⟩ :=
      miscBounds (opX op) (opNN op) s t (opX_lt op) hV hI hmem hDT hrpl h
    refine ⟨tV, tI, ?_, ?_, ?_⟩
    · rcases tPC with hp | hp <;> omega
    · omega
    · omega
  exact absurd (opHi_lt op) (by omega)


/-- Frame conditions of `_exec`: the key array and `loaded` flag are never
written; `halted` is set only by 00FD and `wait_key` only by FX0A (in both
cases nothing else changes); `rpl` is written only by FX75. -/
lemma execFrame (rnd op : Nat) (s t : Machine) (h : CPU.exec rnd op s = .ok t) :
    t.keys = s.keys ∧ t.loaded = s.loaded ∧
    (t.halted = s.halted ∨ (op = 0x00FD ∧ t = { s with halted := true })) ∧
    (t.wait_key = s.wait_key ∨
      ((opHi op = 0xF ∧ opNN op = 0x0A) ∧
        t = { s with wait_key := true, wait_reg := opX op })) ∧
    (¬(opHi op = 0xF ∧ opNN op = 0x75) → t.rpl = s.rpl) := by
  by_cases hE0 : op = 0x00E0
  · rw [exec_00E0 rnd op s hE0] at h
    split_ifs at h <;> cases h <;>
      exact ⟨rfl, rfl, Or.inl rfl, Or.inl rfl, fun _ => rfl⟩
  by_cases hEE : op = 0x00EE
  · rw [exec_00EE rnd op s hEE] at h
    split_ifs at h
    cases h
    exact ⟨rfl, rfl, Or.inl rfl, Or.inl rfl, fun _ => rfl⟩
  by_cases hFB : op = 0x00FB
  · rw [exec_00FB rnd op s hFB] at h
    split_ifs at h <;> cases h <;>
      exact ⟨rfl, rfl, Or.inl rfl, Or.inl rfl, fun _ => rfl⟩
  by_cases hFC : op = 0x00FC
  · rw [exec_00FC rnd op s hFC] at h
    split_ifs at h <;> cases h <;>
      exact ⟨rfl, rfl, Or.inl rfl, Or.inl rfl, fun _ => rfl⟩
  by_cases hFD : op = 0x00FD
  · rw [exec_00FD rnd op s hFD] at h
    cases h
    exact ⟨rfl, rfl, Or.inr ⟨hFD, rfl⟩, Or.inl rfl, fun _ => rfl⟩
  by_cases hFE : op = 0x00FE
  · rw [exec_00FE rnd op s hFE] at h
    cases h
    exact ⟨rfl, rfl, Or.inl rfl, Or.inl rfl, fun _ => rfl⟩
  by_cases hFF : op = 0x00FF
  · rw [exec_00FF rnd op s hFF] at h
    cases h
    exact ⟨rfl, rfl, Or.inl rfl, Or.inl rfl, fun _ => rfl⟩
  by_cases h0 : opHi op = 0
  · by_cases hC : op &&& 0xF0 = 0xC0
    · rw [exec_scd rnd op s h0 hC] at h
      split_ifs at h <;> cases h <;>
        exact ⟨rfl, rfl, Or.inl rfl, Or.inl rfl, fun _ => rfl⟩
    · rw [exec_sys rnd op s hE0 hEE hFB hFC hFD hFE hFF h0 hC] at h
      cases h
      exact ⟨rfl, rfl, Or.inl rfl, Or.inl rfl, fun _ => rfl⟩
  by_cases h1 : opHi op = 1
  · rw [exec_jp rnd op s h1] at h
    cases h
    exact ⟨rfl, rfl, Or.inl rfl, Or.inl rfl, fun _ => rfl⟩
  by_cases h2 : opHi op = 2
  · rw [exec_call rnd op s h2] at h
    split_ifs at h
    cases h
    exact ⟨rfl, rfl, Or.inl rfl, Or.inl rfl, fun _ => rfl⟩
  by_cases h3 : opHi op = 3
  · rw [exec_sei rnd op s h3] at h
    cases h
    exact ⟨rfl, rfl, Or.inl rfl, Or.inl rfl, fun _ => rfl⟩
  by_cases h4 : opHi op = 4
  · rw [exec_snei rnd op s h4] at h
    cases h
    exact ⟨rfl, rfl, Or.inl rfl, Or.inl rfl, fun _ => rfl⟩
  by_cases h5 : opHi op = 5
  · by_cases hn : opN op = 0
    · rw [exec_sereg rnd op s h5 hn] at h
      cases h
      exact ⟨rfl, rfl, Or.inl rfl, Or.inl rfl, fun _ => rfl⟩
    · rw [exec_se5else rnd op s h5 hn] at h
      cases h
      exact ⟨rfl, rfl, Or.inl rfl, Or.inl rfl, fun _ => rfl⟩
  by_cases h6 : opHi op = 6
  · rw [exec_ldi rnd op s h6] at h
    cases h
    exact ⟨rfl, rfl, Or.inl rfl, Or.inl rfl, fun _ => rfl⟩
  by_cases h7 : opHi op = 7
  · rw [exec_addi rnd op s h7] at h
    cases h
    exact ⟨rfl, rfl, Or.inl rfl, Or.inl rfl, fun _ => rfl⟩
  by_cases h8 : opHi op = 8
  · rw [exec_alu8 rnd op s h8] at h
    cases h
    exact ⟨rfl, rfl, Or.inl rfl, Or.inl rfl, fun _ => rfl⟩
  by_cases h9 : opHi op = 9
  · by_cases hn : opN op = 0
    · rw [exec_snereg rnd op s h9 hn] at h
      cases h
      exact ⟨rfl, rfl, Or.inl rfl, Or.inl rfl, fun _ => rfl⟩
    · rw [exec_sne9else rnd op s h9 hn] at h
      cases h
      exact ⟨rfl, rfl, Or.inl rfl, Or.inl rfl, fun _ => rfl⟩
  by_cases hA : opHi op = 0xA
  · rw [exec_ldI rnd op s hA] at h
    cases h
    exact ⟨rfl, rfl, Or.inl rfl, Or.inl rfl, fun _ => rfl⟩
  by_cases hB : opHi op = 0xB
  · rw [exec_jpv0 rnd op s hB] at h
    cases h
    exact ⟨rfl, rfl, Or.inl rfl, Or.inl rfl, fun _ => rfl⟩
  by_cases hCC : opHi op = 0xC
  · rw [exec_rand rnd op s hCC] at h
    cases h
    exact ⟨rfl, rfl, Or.inl rfl, Or.inl rfl, fun _ => rfl⟩
  by_cases hD : opHi op = 0xD
  · rw [exec_drw rnd op s hD] at h
    cases h
    obtain ⟨hdm, hdI, hdPC, hdstack, hdSP, hdDT, hdST, hdhr, hdkeys, hdwk,
      hdwr, hdh, hdl, hdrpl, hdcy⟩ := draw_frame (opX op) (opY op) (opN op) s
    exact ⟨hdkeys, hdl, Or.inl hdh, Or.inl hdwk, fun _ => hdrpl⟩
  by_cases hE : opHi op = 0xE
  · rw [exec_keyops rnd op s hE] at h
    split_ifs at h <;> cases h <;>
      exact ⟨rfl, rfl, Or.inl rfl, Or.inl rfl, fun _ => rfl⟩
  by_cases hF : opHi op = 0xF
  · rw [exec_fx rnd op s hF] at h
    obtain ⟨hk, hh, hl, hw, hr⟩ := miscFrame (opX op) (opNN op) s t h
    refine ⟨hk, hl, Or.inl hh, ?_, ?_⟩
    · rcases hw with hw | ⟨h0A, ht⟩
      · exact Or.inl hw
      · exact Or.inr ⟨⟨hF, h0A⟩, ht⟩
    · intro hne
      exact hr (fun h75 => hne ⟨hF, h75⟩)
  exact absurd (opHi_lt op) (by omega)


/-- Relation between the results of executing the same opcode from two states
that agree on every field `_exec` reads: the register file, memory, stack,
timers and both planes come out equal, and each RPL slot either comes out
equal or is left untouched on both sides. -/
def REL (a b ta tb : Machine) : Prop :=
  ta.V = tb.V ∧ ta.I = tb.I ∧ ta.PC = tb.PC ∧ ta.stack = tb.stack ∧
  ta.SP = tb.SP ∧ ta.DT = tb.DT ∧ ta.ST = tb.ST ∧ ta.gfx = tb.gfx ∧
  ta.gfx_hi = tb.gfx_hi ∧
  (∀ i, ta.rpl i = tb.rpl i ∨ (ta.rpl i = a.rpl i ∧ tb.rpl i = b.rpl i))

lemma miscCong (x nn : Nat) (a b : Machine)
    (hmem : a.mem = b.mem) (hV : a.V = b.V) (hI : a.I = b.I) (hPC : a.PC = b.PC)
    (hstack : a.stack = b.stack) (hSP : a.SP = b.SP) (hDT : a.DT = b.DT)
    (hST : a.ST = b.ST) (hgfx : a.gfx = b.gfx) (hgfxh : a.gfx_hi = b.gfx_hi)
    (hrpl85 : nn = 0x85 → a.rpl = b.rpl) :
    ∀ tb, CPU.misc x nn b = .ok tb →
      ∃ ta, CPU.misc x nn a = .ok ta ∧ REL a b ta tb := by
  intro tb htb
  by_cases h07 : nn = 0x07
  · rw [h07, misc_07] at htb
    cases htb
    refine ⟨{ a with V := upd a.V x a.DT, PC := a.PC + 2 },
      by rw [h07, misc_07], ?_⟩
    unfold REL
    refine ⟨?_, ?_, ?_, ?_, ?_, ?_, ?_, ?_, ?_, fun i => Or.inr ⟨rfl, rfl⟩⟩ <;>
      simp [hmem, hV, hI, hPC, hstack, hSP, hDT, hST, hgfx, hgfxh]
  by_cases h0A : nn = 0x0A
  · rw [h0A, misc_0A] at htb
    cases htb
    refine ⟨{ a with wait_key := true, wait_reg := x },
      by rw [h0A, misc_0A], ?_⟩
    unfold REL
    refine ⟨?_, ?_, ?_, ?_, ?_, ?_, ?_, ?_, ?_, fun i => Or.inr ⟨rfl, rfl⟩⟩ <;>
      simp [hmem, hV, hI, hPC, hstack, hSP, hDT, hST, hgfx, hgfxh]
  by_cases h15 : nn = 0x15
  · rw [h15, misc_15] at htb
    cases htb
    refine ⟨{ a with DT := a.V x, PC := a.PC + 2 }, by rw [h15, misc_15], ?_⟩
    unfold REL
    refine ⟨?_, ?_, ?_, ?_, ?_, ?_, ?_, ?_, ?_, fun i => Or.inr ⟨rfl, rfl⟩⟩ <;>
      simp [hmem, hV, hI, hPC, hstack, hSP, hDT, hST, hgfx, hgfxh]
  by_cases h18 : nn = 0x18
  · rw [h18, misc_18] at htb
    cases htb
    refine ⟨{ a with ST := a.V x, PC := a.PC + 2 }, by rw [h18, misc_18], ?_⟩
    unfold REL
    refine ⟨?_, ?_, ?_, ?_, ?_, ?_, ?_, ?_, ?_, fun i => Or.inr ⟨rfl, rfl⟩⟩ <;>
      simp [hmem, hV, hI, hPC, hstack, hSP, hDT, hST, hgfx, hgfxh]
  by_cases h1E : nn = 0x1E
  · rw [h1E, misc_1E] at htb
    cases htb
    refine ⟨{ a with I := (a.I + a.V x) &&& 0xFFFF, PC := a.PC + 2 },
      by rw [h1E, misc_1E], ?_⟩
    unfold REL
    refine ⟨?_, ?_, ?_, ?_, ?_, ?_, ?_, ?_, ?_, fun i => Or.inr ⟨rfl, rfl⟩⟩ <;>
      simp [hmem, hV, hI, hPC, hstack, hSP, hDT, hST, hgfx, hgfxh]
  by_cases h29 : nn = 0x29
  · rw [h29, misc_29] at htb
    cases htb
    refine ⟨{ a with I := (a.V x &&& 0xF) * 5, PC := a.PC + 2 },
      by rw [h29, misc_29], ?_⟩
    unfold REL
    refine ⟨?_, ?_, ?_, ?_, ?_, ?_, ?_, ?_, ?_, fun i => Or.inr ⟨rfl, rfl⟩⟩ <;>
      simp [hmem, hV, hI, hPC, hstack, hSP, hDT, hST, hgfx, hgfxh]
  by_cases h30 : nn = 0x30
  · rw [h30, misc_30] at htb
    cases htb
    refine ⟨{ a with I := 80 + (a.V x &&& 0xF) * 10, PC := a.PC + 2 },
      by rw [h30, misc_30], ?_⟩
    unfold REL
    refine ⟨?_, ?_, ?_, ?_, ?_, ?_, ?_, ?_, ?_, fun i => Or.inr ⟨rfl, rfl⟩⟩ <;>
      simp [hmem, hV, hI, hPC, hstack, hSP, hDT, hST, hgfx, hgfxh]
  by_cases h33 : nn = 0x33
  · rw [h33, misc_33] at htb
    rw [h33, misc_33]
    have e1 : bytearraySet a.mem a.I (a.V x / 100) =
        bytearraySet b.mem b.I (b.V x / 100) := by rw [hmem, hI, hV]
    cases hb1 : bytearraySet b.mem b.I (b.V x / 100) with
    | none => simp [CPU.bcdStore, hb1] at htb
    | some m1 =>
      have e2 : bytearraySet m1 (a.I + 1) (a.V x / 10 % 10) =
          bytearraySet m1 (b.I + 1) (b.V x / 10 % 10) := by rw [hI, hV]
      cases hb2 : bytearraySet m1 (b.I + 1) (b.V x / 10 % 10) with
      | none => simp [CPU.bcdStore, hb1, hb2] at htb
      | some m2 =>
        have e3 : bytearraySet m2 (a.I + 2) (a.V x % 10) =
            bytearraySet m2 (b.I + 2) (b.V x % 10) := by rw [hI, hV]
        cases hb3 : bytearraySet m2 (b.I + 2) (b.V x % 10) with
        | none => simp [CPU.bcdStore, hb1, hb2, hb3] at htb
        | some m3 =>
          simp only [CPU.bcdStore, hb1, hb2, hb3] at htb
          cases htb
          refine ⟨{ a with mem := m3, PC := a.PC + 2 }, ?_, ?_⟩
          · simp only [CPU.bcdStore, e1.trans hb1, e2.trans hb2, e3.trans hb3]
          · unfold REL
            refine ⟨?_, ?_, ?_, ?_, ?_, ?_, ?_, ?_, ?_,
              fun i => Or.inr ⟨rfl, rfl⟩⟩ <;>
              simp [hmem, hV, hI, hPC, hstack, hSP, hDT, hST, hgfx, hgfxh]
  by_cases h55 : nn = 0x55
  · rw [h55, misc_55] at htb
    rw [h55, misc_55]
    have e : storeMemLoop a.V a.I x 0 a.mem = storeMemLoop b.V b.I x 0 b.mem := by
      rw [hV, hI, hmem]
    cases hsl : storeMemLoop b.V b.I x 0 b.mem with
    | error m => simp [CPU.regStore, hsl] at htb
    | ok m =>
      simp only [CPU.regStore, hsl] at htb
      cases htb
      refine ⟨{ a with mem := m, PC := a.PC + 2 }, ?_, ?_⟩
      · simp only [CPU.regStore, e.trans hsl]
      · unfold REL
        refine ⟨?_, ?_, ?_, ?_, ?_, ?_, ?_, ?_, ?_,
          fun i => Or.inr ⟨rfl, rfl⟩⟩ <;>
          simp [hmem, hV, hI, hPC, hstack, hSP, hDT, hST, hgfx, hgfxh]
  by_cases h65 : nn = 0x65
  · rw [h65, misc_65] at htb
    cases htb
    refine ⟨{ a with V := loadV a.mem a.I x a.V, PC := a.PC + 2 },
      by rw [h65, misc_65], ?_⟩
    unfold REL
    refine ⟨?_, ?_, ?_, ?_, ?_, ?_, ?_, ?_, ?_, fun i => Or.inr ⟨rfl, rfl⟩⟩ <;>
      simp [hmem, hV, hI, hPC, hstack, hSP, hDT, hST, hgfx, hgfxh]
  by_cases h75 : nn = 0x75
  · rw [h75, misc_75] at htb
    cases htb
    refine ⟨{ a with rpl := rplStore a.V x a.rpl, PC := a.PC + 2 },
      by rw [h75, misc_75], ?_⟩
    unfold REL
    refine ⟨?_, ?_, ?_, ?_, ?_, ?_, ?_, ?_, ?_, ?_⟩
    · exact hV
    · exact hI
    · exact (by simp [hPC] :
        ({ a with rpl := rplStore a.V x a.rpl, PC := a.PC + 2 } : Machine).PC =
        ({ b with rpl := rplStore b.V x b.rpl, PC := b.PC + 2 } : Machine).PC)
    · exact hstack
    · exact hSP
    · exact hDT
    · exact hST
    · exact hgfx
    · exact hgfxh
    · intro i
      by_cases hj : i < min (x + 1) 8
      · exact Or.inl (by
          show rplStore a.V x a.rpl i = rplStore b.V x b.rpl i
          unfold rplStore
          rw [if_pos hj, if_pos hj, hV])
      · exact Or.inr ⟨by
          show rplStore a.V x a.rpl i = a.rpl i
          unfold rplStore
          rw [if_neg hj], by
          show rplStore b.V x b.rpl i = b.rpl i
          unfold rplStore
          rw [if_neg hj]⟩
  by_cases h85 : nn = 0x85
  · rw [h85, misc_85] at htb
    cases htb
    refine ⟨{ a with V := rplLoad a.rpl x a.V, PC := a.PC + 2 },
      by rw [h85, misc_85], ?_⟩
    unfold REL
    refine ⟨?_, ?_, ?_, ?_, ?_, ?_, ?_, ?_, ?_, fun i => Or.inr ⟨rfl, rfl⟩⟩ <;>
      simp [hmem, hV, hI, hPC, hstack, hSP, hDT, hST, hgfx, hgfxh, hrpl85 h85]
  rw [misc_default x nn b h07 h0A h15 h18 h1E h29 h30 h33 h55 h65 h75 h85] at htb
  cases htb
  refine ⟨{ a with PC := a.PC + 2 },
    by rw [misc_default x nn a h07 h0A h15 h18 h1E h29 h30 h33 h55 h65 h75 h85], ?_⟩
  unfold REL
  refine ⟨?_, ?_, ?_, ?_, ?_, ?_, ?_, ?_, ?_, fun i => Or.inr ⟨rfl, rfl⟩⟩ <;>
    simp [hmem, hV, hI, hPC, hstack, hSP, hDT, hST, hgfx, hgfxh]


lemma drawCong (x y n : Nat) (a b : Machine)
    (hmem : a.mem = b.mem) (hV : a.V = b.V) (hI : a.I = b.I)
    (hhr : a.hires = b.hires) (hgfx : a.gfx = b.gfx)
    (hgfxh : a.gfx_hi = b.gfx_hi) :
    (CPU.draw x y n a).V = (CPU.draw x y n b).V ∧
    (CPU.draw x y n a).gfx = (CPU.draw x y n b).gfx ∧
    (CPU.draw x y n a).gfx_hi = (CPU.draw x y n b).gfx_hi := by
  unfold CPU.draw
  rw [hmem, hV, hI, hhr, hgfx, hgfxh]
  split_ifs <;> exact ⟨rfl, rfl, rfl⟩

set_option maxHeartbeats 2000000 in
lemma execCong (rnd op : Nat) (a b : Machine)
    (hmem : a.mem = b.mem) (hV : a.V = b.V) (hI : a.I = b.I) (hPC : a.PC = b.PC)
    (hstack : a.stack = b.stack) (hSP : a.SP = b.SP) (hDT : a.DT = b.DT)
    (hST : a.ST = b.ST) (hhr : a.hires = b.hires) (hgfx : a.gfx = b.gfx)
    (hgfxh : a.gfx_hi = b.gfx_hi) (hkeys : a.keys = b.keys)
    (hrpl85 : (opHi op = 0xF ∧ opNN op = 0x85) → a.rpl = b.rpl) :
    ∀ tb, CPU.exec rnd op b = .ok tb →
      ∃ ta, CPU.exec rnd op a = .ok ta ∧ REL a b ta tb := by
  intro tb htb
  by_cases hE0 : op = 0x00E0
  · rw [exec_00E0 rnd op b hE0] at htb
    rw [exec_00E0 rnd op a hE0, hhr, hgfx, hgfxh]
    by_cases hh : b.hires
    · rw [if_pos hh] at htb ⊢
      cases htb
      refine ⟨_, rfl, ?_⟩
      unfold REL
      refine ⟨?_, ?_, ?_, ?_, ?_, ?_, ?_, ?_, ?_, fun i => Or.inr ⟨rfl, rfl⟩⟩ <;>
        simp [hV, hI, hPC, hstack, hSP, hDT, hST, hgfx]
    · rw [if_neg hh] at htb ⊢
      cases htb
      refine ⟨_, rfl, ?_⟩
      unfold REL
      refine ⟨?_, ?_, ?_, ?_, ?_, ?_, ?_, ?_, ?_, fun i => Or.inr ⟨rfl, rfl⟩⟩ <;>
        simp [hV, hI, hPC, hstack, hSP, hDT, hST, hgfxh]
  by_cases hEE : op = 0x00EE
  · rw [exec_00EE rnd op b hEE] at htb
    rw [exec_00EE rnd op a hEE, hSP, hstack]
    split_ifs at htb ⊢ with hsp
    · cases htb
      refine ⟨_, rfl, ?_⟩
      unfold REL
      refine ⟨?_, ?_, ?_, ?_, ?_, ?_, ?_, ?_, ?_, fun i => Or.inr ⟨rfl, rfl⟩⟩ <;>
        simp [hV, hI, hstack, hSP, hDT, hST, hgfx, hgfxh]
  by_cases hFB : op = 0x00FB
  · rw [exec_00FB rnd op b hFB] at htb
    rw [exec_00FB rnd op a hFB, hhr, hgfx, hgfxh]
    by_cases hh : b.hires
    · rw [if_pos hh] at htb ⊢
      cases htb
      refine ⟨_, rfl, ?_⟩
      unfold REL
      refine ⟨?_, ?_, ?_, ?_, ?_, ?_, ?_, ?_, ?_, fun i => Or.inr ⟨rfl, rfl⟩⟩ <;>
        simp [hV, hI, hPC, hstack, hSP, hDT, hST, hgfx]
    · rw [if_neg hh] at htb ⊢
      cases htb
      refine ⟨_, rfl, ?_⟩
      unfold REL
      refine ⟨?_, ?_, ?_, ?_, ?_, ?_, ?_, ?_, ?_, fun i => Or.inr ⟨rfl, rfl⟩⟩ <;>
        simp [hV, hI, hPC, hstack, hSP, hDT, hST, hgfxh]
  by_cases hFC : op = 0x00FC
  · rw [exec_00FC rnd op b hFC] at htb
    rw [exec_00FC rnd op a hFC, hhr, hgfx, hgfxh]
    by_cases hh : b.hires
    · rw [if_pos hh] at htb ⊢
      cases htb
      refine ⟨_, rfl, ?_⟩
      unfold REL
      refine ⟨?_, ?_, ?_, ?_, ?_, ?_, ?_, ?_, ?_, fun i => Or.inr ⟨rfl, rfl⟩⟩ <;>
        simp [hV, hI, hPC, hstack, hSP, hDT, hST, hgfx]
    · rw [if_neg hh] at htb ⊢
      cases htb
      refine ⟨_, rfl, ?_⟩
      unfold REL
      refine ⟨?_, ?_, ?_, ?_, ?_, ?_, ?_, ?_, ?_, fun i => Or.inr ⟨rfl, rfl⟩⟩ <;>
        simp [hV, hI, hPC, hstack, hSP, hDT, hST, hgfxh]
  by_cases hFD : op = 0x00FD
  · rw [exec_00FD rnd op b hFD] at htb
    rw [exec_00FD rnd op a hFD]
    cases htb
    refine ⟨_, rfl, ?_⟩
    unfold REL
    refine ⟨?_, ?_, ?_, ?_, ?_, ?_, ?_, ?_, ?_, fun i => Or.inr ⟨rfl, rfl⟩⟩ <;>
      simp [hV, hI, hPC, hstack, hSP, hDT, hST, hgfx, hgfxh]
  by_cases hFE : op = 0x00FE
  · rw [exec_00FE rnd op b hFE] at htb
    rw [exec_00FE rnd op a hFE]
    cases htb
    refine ⟨_, rfl, ?_⟩
    unfold REL
    refine ⟨?_, ?_, ?_, ?_, ?_, ?_, ?_, ?_, ?_, fun i => Or.inr ⟨rfl, rfl⟩⟩ <;>
      simp [hV, hI, hPC, hstack, hSP, hDT, hST, hgfx, hgfxh]
  by_cases hFF : op = 0x00FF
  · rw [exec_00FF rnd op b hFF] at htb
    rw [exec_00FF rnd op a hFF]
    cases htb
    refine ⟨_, rfl, ?_⟩
    unfold REL
    refine ⟨?_, ?_, ?_, ?_, ?_, ?_, ?_, ?_, ?_, fun i => Or.inr ⟨rfl, rfl⟩⟩ <;>
      simp [hV, hI, hPC, hstack, hSP, hDT, hST, hgfx, hgfxh]
  by_cases h0 : opHi op = 0
  · by_cases hC : op &&& 0xF0 = 0xC0
    · rw [exec_scd rnd op b h0 hC] at htb
      rw [exec_scd rnd op a h0 hC, hhr, hgfx, hgfxh]
      by_cases hh : b.hires
      · rw [if_pos hh] at htb ⊢
        cases htb
        refine ⟨_, rfl, ?_⟩
        unfold REL
        refine ⟨?_, ?_, ?_, ?_, ?_, ?_, ?_, ?_, ?_, fun i => Or.inr ⟨rfl, rfl⟩⟩ <;>
          simp [hV, hI, hPC, hstack, hSP, hDT, hST, hgfx]
      · rw [if_neg hh] at htb ⊢
        cases htb
        refine ⟨_, rfl, ?_⟩
        unfold REL
        refine ⟨?_, ?_, ?_, ?_, ?_, ?_, ?_, ?_, ?_, fun i => Or.inr ⟨rfl, rfl⟩⟩ <;>
          simp [hV, hI, hPC, hstack, hSP, hDT, hST, hgfxh]
    · rw [exec_sys rnd op b hE0 hEE hFB hFC hFD hFE hFF h0 hC] at htb
      rw [exec_sys rnd op a hE0 hEE hFB hFC hFD hFE hFF h0 hC]
      cases htb
      refine ⟨_, rfl, ?_⟩
      unfold REL
      refine ⟨?_, ?_, ?_, ?_, ?_, ?_, ?_, ?_, ?_, fun i => Or.inr ⟨rfl, rfl⟩⟩ <;>
        simp [hV, hI, hPC, hstack, hSP, hDT, hST, hgfx, hgfxh]
  by_cases h1 : opHi op = 1
  · rw [exec_jp rnd op b h1] at htb
    rw [exec_jp rnd op a h1]
    cases htb
    refine ⟨_, rfl, ?_⟩
    unfold REL
    refine ⟨?_, ?_, ?_, ?_, ?_, ?_, ?_, ?_, ?_, fun i => Or.inr ⟨rfl, rfl⟩⟩ <;>
      simp [hV, hI, hPC, hstack, hSP, hDT, hST, hgfx, hgfxh]
  by_cases h2 : opHi op = 2
  · rw [exec_call rnd op b h2] at htb
    rw [exec_call rnd op a h2, hSP, hstack, hPC]
    split_ifs at htb ⊢ with hsp
    · cases htb
      refine ⟨_, rfl, ?_⟩
      unfold REL
      refine ⟨?_, ?_, ?_, ?_, ?_, ?_, ?_, ?_, ?_, fun i => Or.inr ⟨rfl, rfl⟩⟩ <;>
        simp [hV, hI, hPC, hstack, hSP, hDT, hST, hgfx, hgfxh]
  by_cases h3 : opHi op = 3
  · rw [exec_sei rnd op b h3] at htb
    rw [exec_sei rnd op a h3, hV, hPC]
    cases htb
    refine ⟨_, rfl, ?_⟩
    unfold REL
    refine ⟨?_, ?_, ?_, ?_, ?_, ?_, ?_, ?_, ?_, fun i => Or.inr ⟨rfl, rfl⟩⟩ <;>
      simp [hV, hI, hstack, hSP, hDT, hST, hgfx, hgfxh]
  by_cases h4 : opHi op = 4
  · rw [exec_snei rnd op b h4] at htb
    rw [exec_snei rnd op a h4, hV, hPC]
    cases htb
    refine ⟨_, rfl, ?_⟩
    unfold REL
    refine ⟨?_, ?_, ?_, ?_, ?_, ?_, ?_, ?_, ?_, fun i => Or.inr ⟨rfl, rfl⟩⟩ <;>
      simp [hV, hI, hstack, hSP, hDT, hST, hgfx, hgfxh]
  by_cases h5 : opHi op = 5
  · by_cases hn : opN op = 0
    · rw [exec_sereg rnd op b h5 hn] at htb
      rw [exec_sereg rnd op a h5 hn, hV, hPC]
      cases htb
      refine ⟨_, rfl, ?_⟩
      unfold REL
      refine ⟨?_, ?_, ?_, ?_, ?_, ?_, ?_, ?_, ?_, fun i => Or.inr ⟨rfl, rfl⟩⟩ <;>
        simp [hV, hI, hstack, hSP, hDT, hST, hgfx, hgfxh]
    · rw [exec_se5else rnd op b h5 hn] at htb
      rw [exec_se5else rnd op a h5 hn, hPC]
      cases htb
      refine ⟨_, rfl, ?_⟩
      unfold REL
      refine ⟨?_, ?_, ?_, ?_, ?_, ?_, ?_, ?_, ?_, fun i => Or.inr ⟨rfl, rfl⟩⟩ <;>
        simp [hV, hI, hstack, hSP, hDT, hST, hgfx, hgfxh]
  by_cases h6 : opHi op = 6
  · rw [exec_ldi rnd op b h6] at htb
    rw [exec_ldi rnd op a h6, hV, hPC]
    cases htb
    refine ⟨_, rfl, ?_⟩
    unfold REL
    refine ⟨?_, ?_, ?_, ?_, ?_, ?_, ?_, ?_, ?_, fun i => Or.inr ⟨rfl, rfl⟩⟩ <;>
      simp [hV, hI, hstack, hSP, hDT, hST, hgfx, hgfxh]
  by_cases h7 : opHi op = 7
  · rw [exec_addi rnd op b h7] at htb
    rw [exec_addi rnd op a h7, hV, hPC]
    cases htb
    refine ⟨_, rfl, ?_⟩
    unfold REL
    refine ⟨?_, ?_, ?_, ?_, ?_, ?_, ?_, ?_, ?_, fun i => Or.inr ⟨rfl, rfl⟩⟩ <;>
      simp [hV, hI, hstack, hSP, hDT, hST, hgfx, hgfxh]
  by_cases h8 : opHi op = 8
  · rw [exec_alu8 rnd op b h8] at htb
    rw [exec_alu8 rnd op a h8, hV, hPC]
    cases htb
    refine ⟨_, rfl, ?_⟩
    unfold REL
    refine ⟨?_, ?_, ?_, ?_, ?_, ?_, ?_, ?_, ?_, fun i => Or.inr ⟨rfl, rfl⟩⟩ <;>
      simp [hV, hI, hstack, hSP, hDT, hST, hgfx, hgfxh]
  by_cases h9 : opHi op = 9
  · by_cases hn : opN op = 0
    · rw [exec_snereg rnd op b h9 hn] at htb
      rw [exec_snereg rnd op a h9 hn, hV, hPC]
      cases htb
      refine ⟨_, rfl, ?_⟩
      unfold REL
      refine ⟨?_, ?_, ?_, ?_, ?_, ?_, ?_, ?_, ?_, fun i => Or.inr ⟨rfl, rfl⟩⟩ <;>
        simp [hV, hI, hstack, hSP, hDT, hST, hgfx, hgfxh]
    · rw [exec_sne9else rnd op b h9 hn] at htb
      rw [exec_sne9else rnd op a h9 hn, hPC]
      cases htb
      refine ⟨_, rfl, ?_⟩
      unfold REL
      refine ⟨?_, ?_, ?_, ?_, ?_, ?_, ?_, ?_, ?_, fun i => Or.inr ⟨rfl, rfl⟩⟩ <;>
        simp [hV, hI, hstack, hSP, hDT, hST, hgfx, hgfxh]
  by_cases hA : opHi op = 0xA
  · rw [exec_ldI rnd op b hA] at htb
    rw [exec_ldI rnd op a hA, hPC]
    cases htb
    refine ⟨_, rfl, ?_⟩
    unfold REL
    refine ⟨?_, ?_, ?_, ?_, ?_, ?_, ?_, ?_, ?_, fun i => Or.inr ⟨rfl, rfl⟩⟩ <;>
      simp [hV, hI, hstack, hSP, hDT, hST, hgfx, hgfxh]
  by_cases hB : opHi op = 0xB
  · rw [exec_jpv0 rnd op b hB] at htb
    rw [exec_jpv0 rnd op a hB, hV]
    cases htb
    refine ⟨_, rfl, ?_⟩
    unfold REL
    refine ⟨?_, ?_, ?_, ?_, ?_, ?_, ?_, ?_, ?_, fun i => Or.inr ⟨rfl, rfl⟩⟩ <;>
      simp [hV, hI, hstack, hSP, hDT, hST, hgfx, hgfxh]
  by_cases hCC : opHi op = 0xC
  · rw [exec_rand rnd op b hCC] at htb
    rw [exec_rand rnd op a hCC, hV, hPC]
    cases htb
    refine ⟨_, rfl, ?_⟩
    unfold REL
    refine ⟨?_, ?_, ?_, ?_, ?_, ?_, ?_, ?_, ?_, fun i => Or.inr ⟨rfl, rfl⟩⟩ <;>
      simp [hV, hI, hstack, hSP, hDT, hST, hgfx, hgfxh]
  by_cases hD : opHi op = 0xD
  · rw [exec_drw rnd op b hD] at htb
    rw [exec_drw rnd op a hD]
    cases htb
    obtain ⟨hcV, hcg, hcgh⟩ :=
      drawCong (opX op) (opY op) (opN op) a b hmem hV hI hhr hgfx hgfxh
    obtain ⟨ham, haI, haPC, hastack, haSP, haDT, haST, hahr, hakeys, hawk,
      hawr, hah, hal, harpl, hacy⟩ := draw_frame (opX op) (opY op) (opN op) a
    obtain ⟨hbm, hbI, hbPC, hbstack, hbSP, hbDT, hbST, hbhr, hbkeys, hbwk,
      hbwr, hbh, hbl, hbrpl, hbcy⟩ := draw_frame (opX op) (opY op) (opN op) b
    refine ⟨_, rfl, ?_⟩
    unfold REL
    refine ⟨?_, ?_, ?_, ?_, ?_, ?_, ?_, ?_, ?_, ?_⟩
    · exact hcV
    · show (CPU.draw (opX op) (opY op) (opN op) a).I =
        (CPU.draw (opX op) (opY op) (opN op) b).I
      rw [haI, hbI, hI]
    · show (CPU.draw (opX op) (opY op) (opN op) a).PC + 2 =
        (CPU.draw (opX op) (opY op) (opN op) b).PC + 2
      rw [haPC, hbPC, hPC]
    · show (CPU.draw (opX op) (opY op) (opN op) a).stack =
        (CPU.draw (opX op) (opY op) (opN op) b).stack
      rw [hastack, hbstack, hstack]
    · show (CPU.draw (opX op) (opY op) (opN op) a).SP =
        (CPU.draw (opX op) (opY op) (opN op) b).SP
      rw [haSP, hbSP, hSP]
    · show (CPU.draw (opX op) (opY op) (opN op) a).DT =
        (CPU.draw (opX op) (opY op) (opN op) b).DT
      rw [haDT, hbDT, hDT]
    · show (CPU.draw (opX op) (opY op) (opN op) a).ST =
        (CPU.draw (opX op) (opY op) (opN op) b).ST
      rw [haST, hbST, hST]
    · exact hcg
    · exact hcgh
    · intro i
      exact Or.inr ⟨congrFun harpl i, congrFun hbrpl i⟩
  by_cases hE : opHi op = 0xE
  · rw [exec_keyops rnd op b hE] at htb
    rw [exec_keyops rnd op a hE, hV, hkeys, hPC]
    split_ifs at htb ⊢ <;> cases htb <;>
      exact ⟨_, rfl, by
        unfold REL
        refine ⟨?_, ?_, ?_, ?_, ?_, ?_, ?_, ?_, ?_, fun i => Or.inr ⟨rfl, rfl⟩⟩ <;>
          simp [hV, hI, hstack, hSP, hDT, hST, hgfx, hgfxh]⟩
  by_cases hF : opHi op = 0xF
  · rw [exec_fx rnd op b hF] at htb
    rw [exec_fx rnd op a hF]
    exact miscCong (opX op) (opNN op) a b hmem hV hI hPC hstack hSP hDT hST
      hgfx hgfxh (fun h85 => hrpl85 ⟨hF, h85⟩) tb htb
  exact absurd (opHi_lt op) (by omega)


/-! ### Step-level characterization -/

lemma step_no_op (r : Nat) (s : Machine) (hg : (s.halted || s.wait_key) = true) :
    CPU.step r s = .ok s := by
  unfold CPU.step
  rw [if_pos hg]

lemma step_exec (r : Nat) (s u : Machine)
    (hg : (s.halted || s.wait_key) = false) (hpc : s.PC + 1 < 4096)
    (hex : CPU.exec r ((s.mem s.PC <<< 8) ||| s.mem (s.PC + 1)) s = .ok u) :
    CPU.step r s = .ok { u with cycles := u.cycles + 1 } := by
  unfold CPU.step
  rw [if_neg (by simp [hg])]
  have hm1 : memGet s s.PC = some (s.mem s.PC) := by
    unfold memGet MEMORY_SIZE
    rw [if_pos (by omega)]
  have hm2 : memGet s (s.PC + 1) = some (s.mem (s.PC + 1)) := by
    unfold memGet MEMORY_SIZE
    rw [if_pos (by omega)]
  simp only [hm1, hm2, hex]

lemma step_char (r : Nat) (s t : Machine) (h : CPU.step r s = .ok t) :
    ((s.halted || s.wait_key) = true ∧ t = s) ∨
    ((s.halted || s.wait_key) = false ∧ s.PC + 1 < 4096 ∧
      ∃ u, CPU.exec r ((s.mem s.PC <<< 8) ||| s.mem (s.PC + 1)) s = .ok u ∧
        t = { u with cycles := u.cycles + 1 }) := by
  unfold CPU.step at h
  by_cases hg : (s.halted || s.wait_key) = true
  · rw [if_pos hg] at h
    cases h
    exact Or.inl ⟨hg, rfl⟩
  · rw [if_neg hg] at h
    have hgf : (s.halted || s.wait_key) = false := by
      cases hb : (s.halted || s.wait_key)
      · rfl
      · exact absurd hb hg
    cases hm1 : memGet s s.PC with
    | none =>
      simp only [hm1] at h
      exact (Except.noConfusion h)
    | some b1 =>
      cases hm2 : memGet s (s.PC + 1) with
      | none =>
        simp only [hm1, hm2] at h
        exact (Except.noConfusion h)
      | some b2 =>
        simp only [hm1, hm2] at h
        have hpc2 : s.PC + 1 < 4096 := by
          unfold memGet MEMORY_SIZE at hm2
          split_ifs at hm2 with hlt
          · omega
        have hb1 : b1 = s.mem s.PC := by
          unfold memGet MEMORY_SIZE at hm1
          split_ifs at hm1 with hlt
          · cases hm1; rfl
        have hb2 : b2 = s.mem (s.PC + 1) := by
          unfold memGet MEMORY_SIZE at hm2
          split_ifs at hm2 with hlt
          · cases hm2; rfl
        subst hb1
        subst hb2
        cases hex : CPU.exec r ((s.mem s.PC <<< 8) ||| s.mem (s.PC + 1)) s with
        | error e => rw [hex] at h; cases h
        | ok u =>
          rw [hex] at h
          cases h
          exact Or.inr ⟨hgf, hpc2, u, rfl, rfl⟩

/-! ### Claim C3 infrastructure: the observable part of the state -/

/-- The register file (including the RPL slots) and both framebuffer planes:
the components the snapshot-replay law compares. -/
structure Obs where
  V : Nat → Nat
  I : Nat
  PC : Nat
  stack : Nat → Nat
  SP : Int
  DT : Nat
  ST : Nat
  rpl : Nat → Nat
  gfx : Nat → Nat → Nat
  gfx_hi : Nat → Nat → Nat

def obs (s : Machine) : Obs :=
  ⟨s.V, s.I, s.PC, s.stack, s.SP, s.DT, s.ST, s.rpl, s.gfx, s.gfx_hi⟩

/-- The sequence step; snapshot; step; restore(snapshot); step, with the same
PRNG draw `r2` supplied to the second step and to its replay. -/
def seqSSR (r1 r2 : Nat) (s : Machine) : Except Machine Machine :=
  (CPU.step r1 s).bind fun s1 =>
    (CPU.step r2 s1).bind fun s2 =>
      CPU.step r2 (CPU.restore (CPU.state s1) s2)

def stepTwice (r1 r2 : Nat) (s : Machine) : Except Machine Machine :=
  (CPU.step r1 s).bind fun s1 => CPU.step r2 s1

lemma obs_eq (a b : Machine) (hV : a.V = b.V) (hI : a.I = b.I)
    (hPC : a.PC = b.PC) (hstack : a.stack = b.stack) (hSP : a.SP = b.SP)
    (hDT : a.DT = b.DT) (hST : a.ST = b.ST) (hrpl : a.rpl = b.rpl)
    (hgfx : a.gfx = b.gfx) (hgfxh : a.gfx_hi = b.gfx_hi) : obs a = obs b := by
  unfold obs
  rw [hV, hI, hPC, hstack, hSP, hDT, hST, hrpl, hgfx, hgfxh]

lemma replay_core (r2 : Nat) (s1 s2 : Machine)
    (h2 : CPU.step r2 s1 = .ok s2) :
    ∃ s4, CPU.step r2 (CPU.restore (CPU.state s1) s2) = .ok s4 ∧
      obs s4 = obs s2 := by
  rcases step_char r2 s1 s2 h2 with ⟨hg, hts⟩ | ⟨hg, hpc, u, hex, htu⟩
  · -- the second step was already a no-op
    rw [hts]
    refine ⟨CPU.restore (CPU.state s1) s1, step_no_op r2 _ ?_, rfl⟩
    show (s1.halted || s1.wait_key) = true
    exact hg
  · subst htu
    have hh1 : s1.halted = false := by
      cases hb : s1.halted
      · rfl
      · rw [hb] at hg; simp at hg
    have hw1 : s1.wait_key = false := by
      cases hb : s1.wait_key
      · rfl
      · rw [hb] at hg; simp at hg
    obtain ⟨fkeys, floaded, fhalt, fwait, frpl⟩ :=
      execFrame r2 ((s1.mem s1.PC <<< 8) ||| s1.mem (s1.PC + 1)) s1 u hex
    by_cases hu : (u.halted || u.wait_key) = true
    · -- the executed opcode was 00FD or FX0A: the replay is gated off,
      -- and the opcode did not touch the observable state
      refine ⟨CPU.restore (CPU.state s1) _, step_no_op r2 _ hu, ?_⟩
      have hobs : obs u = obs s1 := by
        rcases Bool.or_eq_true_iff.mp hu with hub | huw
        · rcases fhalt with heq | ⟨-, hfd⟩
          · rw [hub, hh1] at heq; cases heq
          · subst hfd; rfl
        · rcases fwait with heq | ⟨-, hfa⟩
          · rw [huw, hw1] at heq; cases heq
          · subst hfa; rfl
      refine obs_eq _ _ ?_ ?_ ?_ ?_ ?_ ?_ ?_ ?_ ?_ ?_ <;>
        first
          | rfl
          | exact (congrArg Obs.V hobs).symm
          | exact (congrArg Obs.I hobs).symm
          | exact (congrArg Obs.PC hobs).symm
          | exact (congrArg Obs.stack hobs).symm
          | exact (congrArg Obs.SP hobs).symm
          | exact (congrArg Obs.DT hobs).symm
          | exact (congrArg Obs.ST hobs).symm
          | exact (congrArg Obs.gfx hobs).symm
          | exact (congrArg Obs.gfx_hi hobs).symm
    · have hu2 : (u.halted || u.wait_key) = false := by
        cases hb : (u.halted || u.wait_key)
        · rfl
        · exact absurd hb hu
      -- replay the opcode from the restored state
      obtain ⟨ta, hex3, rel⟩ :=
        execCong r2 ((s1.mem s1.PC <<< 8) ||| s1.mem (s1.PC + 1))
          (CPU.restore (CPU.state s1) { u with cycles := u.cycles + 1 }) s1
          rfl rfl rfl rfl rfl rfl rfl rfl rfl rfl rfl
          fkeys
          (fun h85 => frpl (fun ⟨hF, h75⟩ => by
            rw [h85.2] at h75
            exact absurd h75 (by decide)))
          u hex
      refine ⟨{ ta with cycles := ta.cycles + 1 }, ?_, ?_⟩
      · exact step_exec r2 _ ta (by simpa using hu2) (by
          show s1.PC + 1 < 4096
          exact hpc) hex3
      · obtain ⟨rV, rI, rPC, rstack, rSP, rDT, rST, rgfx, rgfxh, rrpl⟩ := rel
        refine obs_eq _ _ rV rI rPC rstack rSP rDT rST ?_ rgfx rgfxh
        funext i
        rcases rrpl i with hr | ⟨hr1, hr2⟩
        · exact hr
        · exact hr1
  
/-- Claim C3 (amended): for every machine state s and PRNG draws r1, r2,
running step; snapshot; step; restore(that snapshot); step — with the
replayed step drawing the same random byte r2 as the step it replays —
yields a framebuffer (both planes) and register file (V, I, PC, stack, SP,
DT, ST, RPL) equal to those of running step TWICE from s (not once, as the
claim states); this includes the cases where the intermediate step sets the
halted flag (00FD) or the key-wait flag (FX0A), which are not snapshotted
and gate the replayed step off. -/
theorem c3_replay (r1 r2 : Nat) (s : Machine) :
    Except.map obs (seqSSR r1 r2 s) = Except.map obs (stepTwice r1 r2 s) := by
  unfold seqSSR stepTwice
  cases h1 : CPU.step r1 s with
  | error e => rfl
  | ok s1 =>
    show Except.map obs ((CPU.step r2 s1).bind fun s2 =>
        CPU.step r2 (CPU.restore (CPU.state s1) s2)) =
      Except.map obs (CPU.step r2 s1)
    cases h2 : CPU.step r2 s1 with
    | error e => rfl
    | ok s2 =>
      obtain ⟨s4, h4, hobs⟩ := replay_core r2 s1 s2 h2
      show Except.map obs (CPU.step r2 (CPU.restore (CPU.state s1) s2)) =
        Except.map obs (.ok s2)
      rw [h4]
      show Except.ok (obs s4) = Except.ok (obs s2)
      rw [hobs]


/-! ### Claim-level definitions and concrete machines -/

/-- The register-file invariant exactly as the specification lists it. -/
def ClaimInv (s : Machine) : Prop :=
  (∀ i, i < 16 → s.V i < 256) ∧ s.I < 65536 ∧ s.PC < 4096 ∧
  0 ≤ s.SP ∧ s.SP ≤ 16

/-- The full well-formedness every state reachable through the public API
satisfies: the listed register bounds plus byte-valued memory, timer and RPL
slots, and stack entries that are pushed PC values (at most 4094, since a
push only happens after a successful two-byte fetch). -/
def MachInv (s : Machine) : Prop :=
  ClaimInv s ∧ (∀ i, i < 4096 → s.mem i < 256) ∧ s.DT < 256 ∧
  (∀ i, i < 16 → s.stack i ≤ 4094) ∧ (∀ i, i < 8 → s.rpl i < 256)

/-- The big-endian opcode at `PC` (the expression `step` fetches when the
two reads are in range). -/
def fetched (s : Machine) : Nat := (s.mem s.PC <<< 8) ||| s.mem (s.PC + 1)

/-- An all-zero machine with `PC = 0x200` (memory entirely zero, unlike the
font-initialized `blankMachine`). -/
def zeroMachine : Machine :=
  { mem := fun _ => 0, V := fun _ => 0, I := 0, PC := 0x200,
    stack := fun _ => 0, SP := 0, DT := 0, ST := 0, hires := false,
    gfx := fun _ _ => 0, gfx_hi := fun _ _ => 0, keys := fun _ => 0,
    wait_key := false, wait_reg := 0, draw_flag := false, halted := false,
    loaded := false, rom_name := "", rom_path := "", cycles := 0,
    rpl := fun _ => 0 }

lemma zeroMachine_inv : MachInv zeroMachine :=
  ⟨⟨fun _ _ => (by norm_num : (0 : Nat) < 256), by decide, by decide,
    by decide, by decide⟩,
   fun _ _ => (by norm_num : (0 : Nat) < 256), by decide,
   fun _ _ => (by norm_num : (0 : Nat) ≤ 4094),
   fun _ _ => (by norm_num : (0 : Nat) < 256)⟩

/-! ### Claim C1 -/

/-- A freshly constructed CPU with the two-byte ROM `1F FF` (the single
instruction `JP 0xFFF`) loaded: a real reachable configuration. -/
def c1Machine : Machine := (CPU.load_bytes [0x1F, 0xFF] "rom" blankMachine).2

/-- Counterexample to claim C1 as stated: from a freshly loaded CPU, the
first step succeeds (executing `JP 0xFFF`), and the second step raises an
uncaught `IndexError` — `step()` fetches `mem[0xFFF]` and `mem[0x1000]`,
and the latter is out of range.  `step()` is therefore not total. -/
theorem c1_counterexample :
    (stepN 0 1 c1Machine).isOk = true ∧ (stepN 0 2 c1Machine).isOk = false := by
  constructor <;> rfl

/-- Claim C1 (amended): `step()` terminates normally from every well-formed
state whose program counter admits a two-byte fetch (`PC + 1 < 4096`),
provided the fetched opcode is not `CALL` with a full stack (`SP = 16`) and
not `FX33` with `I + 2 ≥ 4096`.  In the excluded cases an `IndexError`
escapes `step()`; `RET` at `SP = 0` does NOT raise (Python's negative
indexing reads `stack[15]`). -/
theorem c1_step_no_exception (rnd : Nat) (s : Machine) (hInv : MachInv s)
    (hfetch : s.PC + 1 < 4096)
    (hcall : opHi (fetched s) = 2 → s.SP < 16)
    (hbcd : opHi (fetched s) = 0xF → opNN (fetched s) = 0x33 →
      s.I + 2 < 4096) :
    (CPU.step rnd s).isOk = true := by
  obtain ⟨⟨hV, hI, hPC, hSP0, hSP1⟩, hmem, hDT, hstack, hrpl⟩ := hInv
  by_cases hg : (s.halted || s.wait_key) = true
  · rw [step_no_op rnd s hg]; rfl
  · have hgf : (s.halted || s.wait_key) = false := by
      cases hb : (s.halted || s.wait_key)
      · rfl
      · exact absurd hb hg
    unfold CPU.step
    rw [if_neg hg]
    have hm1 : memGet s s.PC = some (s.mem s.PC) := by
      unfold memGet MEMORY_SIZE
      rw [if_pos (by omega)]
    have hm2 : memGet s (s.PC + 1) = some (s.mem (s.PC + 1)) := by
      unfold memGet MEMORY_SIZE
      rw [if_pos (by omega)]
    simp only [hm1, hm2]
    have htot := execTotal rnd ((s.mem s.PC <<< 8) ||| s.mem (s.PC + 1)) s
      hV hSP0 hSP1 hcall hbcd
    cases hex : CPU.exec rnd ((s.mem s.PC <<< 8) ||| s.mem (s.PC + 1)) s with
    | error e =>
      rw [hex] at htot
      simp [Except.isOk, Except.toBool] at htot
    | ok t => simp only [hex]; rfl

/-- Witness for C1: at the all-zero machine the fetched opcode is `0x0000`
(a SYS no-op) and every hypothesis holds. -/
theorem c1_witness :
    MachInv zeroMachine ∧ zeroMachine.PC + 1 < 4096 ∧
    (CPU.step 0 zeroMachine).isOk = true :=
  ⟨zeroMachine_inv, by decide,
   c1_step_no_exception 0 zeroMachine zeroMachine_inv (by decide)
     (by decide) (by decide)⟩

/-! ### Claim C2 -/

/-- A machine satisfying the claimed invariant whose next opcode is `00EE`
(RET) with `SP = 0`. -/
def c2Machine : Machine :=
  { zeroMachine with mem := fun i => if i = 0x201 then 0xEE else 0 }

/-- Counterexample to claim C2 as stated: from a state satisfying the
claimed invariant (`SP = 0 ∈ [0,16]`), executing `RET` completes normally —
Python's negative indexing reads `stack[-1]` — and leaves `SP = -1`,
outside `[0, 16]`. -/
theorem c2_counterexample :
    ClaimInv c2Machine ∧
    (CPU.step 0 c2Machine).toOption.map Machine.SP = some (-1) ∧
    ¬(0 ≤ (-1 : Int) ∧ (-1 : Int) ≤ 16) := by
  refine ⟨⟨fun i _ => ?_, by decide, by decide, by decide, by decide⟩,
    by rfl, by norm_num⟩
  show (0 : Nat) < 256
  norm_num

/-- Claim C2 (amended): after a `step()` that completes normally from a
well-formed state, every `V[i]` is in `[0, 255]` and `I` in `[0, 65535]`,
but `PC` is only bounded by `4350 = 0xFFF + 0xFF` (`BNNN` adds `V[0]` to
an unmasked 12-bit target, and `PC += 2/4` at the top of memory also
exceeds `4095`), and `SP` lies in `[-1, 16]` (`RET` at `SP = 0` yields
`SP = -1`; `CALL` at `SP = 16` raises instead of returning). -/
theorem c2_bounds_after_step (rnd : Nat) (s t : Machine) (hInv : MachInv s)
    (h : CPU.step rnd s = .ok t) :
    (∀ i, i < 16 → t.V i < 256) ∧ t.I < 65536 ∧ t.PC ≤ 4350 ∧
    -1 ≤ t.SP ∧ t.SP ≤ 16 := by
  obtain ⟨⟨hV, hI, hPC, hSP0, hSP1⟩, hmem, hDT, hstack, hrpl⟩ := hInv
  rcases step_char rnd s t h with ⟨hg, hts⟩ | ⟨hg, hpc, u, hex, htu⟩
  · subst hts
    exact ⟨hV, hI, by omega, by omega, by omega⟩
  · subst htu
    obtain ⟨bV, bI, bPC, bSP0, bSP1⟩ := execBounds rnd
      ((s.mem s.PC <<< 8) ||| s.mem (s.PC + 1)) s u
      hV hI hPC hSP0 hSP1 hmem hDT hstack hrpl hex
    exact ⟨bV, bI, bPC, bSP0, bSP1⟩

/-- Witness for C2 at the all-zero machine (whose step executes the SYS
no-op `0x0000`). -/
theorem c2_witness :
    MachInv zeroMachine ∧
    CPU.step 0 zeroMachine =
      .ok { zeroMachine with PC := 0x202, cycles := 1 } ∧
    ((∀ i, i < 16 →
        ({ zeroMachine with PC := 0x202, cycles := 1 } : Machine).V i < 256) ∧
      ({ zeroMachine with PC := 0x202, cycles := 1 } : Machine).I < 65536 ∧
      ({ zeroMachine with PC := 0x202, cycles := 1 } : Machine).PC ≤ 4350 ∧
      -1 ≤ ({ zeroMachine with PC := 0x202, cycles := 1 } : Machine).SP ∧
      ({ zeroMachine with PC := 0x202, cycles := 1 } : Machine).SP ≤ 16) :=
  ⟨zeroMachine_inv, by rfl,
   c2_bounds_after_step 0 zeroMachine
     { zeroMachine with PC := 0x202, cycles := 1 } zeroMachine_inv (by rfl)⟩

/-! ### Claim C3 -/

/-- A machine whose next two opcodes are `6005` and `6106` (two immediate
loads). -/
def c3Machine : Machine :=
  { zeroMachine with mem := fun i =>
      if i = 0x200 then 0x60 else if i = 0x201 then 0x05
      else if i = 0x202 then 0x61 else if i = 0x203 then 0x06 else 0 }

/-- Counterexample to claim C3 as stated: the sequence
step; snapshot; step; restore; step ends with `PC = 0x204`, two
instructions past the start, while a single step from the same state ends
with `PC = 0x202`; the program counter is part of the register file, so the
sequence does not reproduce a single step. -/
theorem c3_counterexample :
    (seqSSR 0 0 c3Machine).toOption.map Machine.PC = some 0x204 ∧
    (CPU.step 0 c3Machine).toOption.map Machine.PC = some 0x202 ∧
    (0x204 : Nat) ≠ 0x202 := by
  refine ⟨by rfl, by rfl, by norm_num⟩

/-! ### Claim C4 -/

def c4Machine : Machine := { zeroMachine with rpl := fun _ => 1 }

/-- Counterexample to claim C4 as stated: `reset()` reassigns
`self.rpl = [0] * 8`, so a nonzero RPL slot does not survive a reset. -/
theorem c4_counterexample :
    (CPU.reset c4Machine).rpl 0 = 0 ∧ c4Machine.rpl 0 = 1 ∧
    (0 : Nat) ≠ 1 := ⟨rfl, rfl, by norm_num⟩

/-- Claim C4 (amended): `reset()` clears all eight RPL slots to zero (the
slots are NOT preserved across reset), and hence after any successful
`load_bytes` — which resets first — they are zero as well. -/
theorem c4_reset_clears_rpl (s : Machine) :
    (∀ i, (CPU.reset s).rpl i = 0) ∧
    (∀ data name, (CPU.load_bytes data name s).1 = true →
      ∀ i, ((CPU.load_bytes data name s).2).rpl i = 0) := by
  constructor
  · intro i; rfl
  · intro data name hld i
    by_cases hlen : data.length > MEMORY_SIZE - PROGRAM_START
    · unfold CPU.load_bytes at hld
      rw [if_pos hlen] at hld
      cases hld
    · unfold CPU.load_bytes
      rw [if_neg hlen]
      rfl

/-- Witness for C4: loading an empty ROM into a machine whose RPL slots are
nonzero leaves them zero afterwards. -/
theorem c4_witness :
    (CPU.load_bytes ([] : List Nat) "r" c4Machine).1 = true ∧
    (CPU.reset c4Machine).rpl 0 = 0 ∧
    ((CPU.load_bytes ([] : List Nat) "r" c4Machine).2).rpl 0 = 0 :=
  ⟨by rfl, (c4_reset_clears_rpl c4Machine).1 0,
   (c4_reset_clears_rpl c4Machine).2 [] "r" (by rfl) 0⟩

/-! ### Claim C5 -/

def c5Machine : Machine := { zeroMachine with I := 4096 }

/-- Counterexample to claim C5 as stated: `FX33` does not wrap its
addresses modulo 4096 — with `I = 4096` (legal, since `I` ranges over
`[0, 65535]`) the write `mem[I]` raises `IndexError` instead of storing at
`I mod 4096 = 0`. -/
theorem c5_counterexample :
    c5Machine.I = 4096 ∧ (CPU.misc 0 0x33 c5Machine).isOk = false := by
  refine ⟨rfl, ?_⟩
  rw [misc_33]
  exact bcdStore_err 0 c5Machine (by decide)

/-- Claim C5 (amended): `FX55` does wrap every write modulo 4096 — it
stores `V[0..x]` at `(I+i) mod 4096`, touches no other address, and never
fails — but `FX33` uses the raw addresses `I`, `I+1`, `I+2`: it stores the
BCD digits there when `I + 2 < 4096` and raises `IndexError` otherwise. -/
theorem c5_wrap (s : Machine) (x : Nat) (hx : x < 16)
    (hV : ∀ i, i < 16 → s.V i < 256) :
    (∃ t, CPU.misc x 0x55 s = .ok t ∧
      (∀ i, i ≤ x → t.mem ((s.I + i) % 4096) = s.V i) ∧
      (∀ a, (∀ i, i ≤ x → a ≠ (s.I + i) % 4096) → t.mem a = s.mem a) ∧
      t.PC = s.PC + 2 ∧ t.V = s.V ∧ t.I = s.I) ∧
    (s.I + 2 < 4096 →
      ∃ t, CPU.misc x 0x33 s = .ok t ∧
        t.mem s.I = s.V x / 100 ∧ t.mem (s.I + 1) = s.V x / 10 % 10 ∧
        t.mem (s.I + 2) = s.V x % 10 ∧ t.PC = s.PC + 2) ∧
    (4096 ≤ s.I + 2 → (CPU.misc x 0x33 s).isOk = false) := by
  refine ⟨?_, ?_, ?_⟩
  · obtain ⟨m, hm⟩ := storeMemLoop_ok s.V s.I x hV hx 0 s.mem
    obtain ⟨hw, hf⟩ := storeMemLoop_spec s.V s.I x hV hx 0 s.mem m hm
    refine ⟨{ s with mem := m, PC := s.PC + 2 }, ?_, ?_, ?_, rfl, rfl, rfl⟩
    · rw [misc_55]
      simp only [CPU.regStore, hm]
    · intro i hi
      exact hw i (by omega) hi
    · intro a ha
      exact hf a (fun j _ hj => ha j hj)
  · intro hI
    rw [misc_33, bcdStore_eq x s (hV x hx) hI]
    refine ⟨_, rfl, ?_, ?_, ?_, rfl⟩
    · show upd (upd (upd s.mem s.I (s.V x / 100)) (s.I + 1) (s.V x / 10 % 10))
        (s.I + 2) (s.V x % 10) s.I = s.V x / 100
      rw [upd_apply, if_neg (by omega), upd_apply, if_neg (by omega),
        upd_apply, if_pos rfl]
    · show upd (upd (upd s.mem s.I (s.V x / 100)) (s.I + 1) (s.V x / 10 % 10))
        (s.I + 2) (s.V x % 10) (s.I + 1) = s.V x / 10 % 10
      rw [upd_apply, if_neg (by omega), upd_apply, if_pos rfl]
    · show upd (upd (upd s.mem s.I (s.V x / 100)) (s.I + 1) (s.V x / 10 % 10))
        (s.I + 2) (s.V x % 10) (s.I + 2) = s.V x % 10
      rw [upd_apply, if_pos rfl]
  · intro hI
    rw [misc_33]
    exact bcdStore_err x s hI

/-- A machine with nonzero registers for the C5 witness. -/
def c5WMachine : Machine :=
  { zeroMachine with I := 0x300, V := fun i => if i < 16 then 100 + i else 0 }

/-- Witness for C5 at `x = 1`, `I = 0x300`. -/
theorem c5_witness :
    (1 : Nat) < 16 ∧ (∀ i, i < 16 → c5WMachine.V i < 256) ∧
    ((∃ t, CPU.misc 1 0x55 c5WMachine = .ok t ∧
      (∀ i, i ≤ 1 → t.mem ((c5WMachine.I + i) % 4096) = c5WMachine.V i) ∧
      (∀ a, (∀ i, i ≤ 1 → a ≠ (c5WMachine.I + i) % 4096) →
        t.mem a = c5WMachine.mem a) ∧
      t.PC = c5WMachine.PC + 2 ∧ t.V = c5WMachine.V ∧ t.I = c5WMachine.I) ∧
    (c5WMachine.I + 2 < 4096 →
      ∃ t, CPU.misc 1 0x33 c5WMachine = .ok t ∧
        t.mem c5WMachine.I = c5WMachine.V 1 / 100 ∧
        t.mem (c5WMachine.I + 1) = c5WMachine.V 1 / 10 % 10 ∧
        t.mem (c5WMachine.I + 2) = c5WMachine.V 1 % 10 ∧
        t.PC = c5WMachine.PC + 2) ∧
    (4096 ≤ c5WMachine.I + 2 → (CPU.misc 1 0x33 c5WMachine).isOk = false)) :=
  ⟨by norm_num, fun i hi => by
      show (if i < 16 then 100 + i else 0) < 256
      split_ifs <;> omega,
   c5_wrap c5WMachine 1 (by norm_num) (fun i hi => by
      show (if i < 16 then 100 + i else 0) < 256
      split_ifs <;> omega)⟩

/-! ### Claim C6 -/

/-- A machine with the (0,0) pixel of the low-res plane lit. -/
def c6Machine : Machine :=
  { zeroMachine with gfx := fun r c => if r = 0 ∧ c = 0 then 1 else 0 }

/-- Counterexample to claim C6 as stated: opcode `0x01C5` is not `00CN`
(its second nibble is 1), yet the interpreter treats it as `SCD 5` — the
dispatch tests only `hi == 0 and (op & 0xF0) == 0xC0` — so the framebuffer
changes: the pixel at (0,0) moves to (5,0). -/
theorem c6_counterexample :
    c6Machine.gfx 0 0 = 1 ∧
    (CPU.exec 0 0x01C5 c6Machine).toOption.map (fun t => t.gfx 0 0) =
      some 0 ∧
    (CPU.exec 0 0x01C5 c6Machine).toOption.map (fun t => t.gfx 5 0) =
      some 1 := by
  refine ⟨rfl, by rfl, by rfl⟩

/-- Claim C6 (amended): a `0NNN` opcode outside the listed set is a SYS
no-op — `PC += 2` and no other field changes — only when the high nibble of
its low byte is not `0xC`; any `0NNN` whose low byte is `0xC0..0xCF`
(e.g. `0x01C5`) executes `SCD n` on the active plane instead. -/
theorem c6_sys_and_scd (rnd op : Nat) (s : Machine) (h0 : opHi op = 0)
    (hE0 : op ≠ 0x00E0) (hEE : op ≠ 0x00EE) (hFB : op ≠ 0x00FB)
    (hFC : op ≠ 0x00FC) (hFD : op ≠ 0x00FD) (hFE : op ≠ 0x00FE)
    (hFF : op ≠ 0x00FF) :
    (op &&& 0xF0 ≠ 0xC0 →
      CPU.exec rnd op s = .ok { s with PC := s.PC + 2 }) ∧
    (op &&& 0xF0 = 0xC0 →
      CPU.exec rnd op s =
        (if s.hires then
          .ok { s with
            gfx_hi := scrollDown (opN op) SCHIP_HEIGHT SCHIP_WIDTH s.gfx_hi,
            draw_flag := true, PC := s.PC + 2 }
        else
          .ok { s with
            gfx := scrollDown (opN op) CHIP8_HEIGHT CHIP8_WIDTH s.gfx,
            draw_flag := true, PC := s.PC + 2 })) :=
  ⟨fun hC => exec_sys rnd op s hE0 hEE hFB hFC hFD hFE hFF h0 hC,
   fun hC => exec_scd rnd op s h0 hC⟩

/-- Witness for C6 at the genuine SYS opcode `0x0123`. -/
theorem c6_witness :
    opHi 0x0123 = 0 ∧ (0x0123 : Nat) ≠ 0x00E0 ∧
    ((0x0123 &&& 0xF0 ≠ 0xC0 →
      CPU.exec 0 0x0123 zeroMachine =
        .ok { zeroMachine with PC := zeroMachine.PC + 2 }) ∧
    (0x0123 &&& 0xF0 = 0xC0 →
      CPU.exec 0 0x0123 zeroMachine =
        (if zeroMachine.hires then
          .ok { zeroMachine with
            gfx_hi := scrollDown (opN 0x0123) SCHIP_HEIGHT SCHIP_WIDTH
              zeroMachine.gfx_hi,
            draw_flag := true, PC := zeroMachine.PC + 2 }
        else
          .ok { zeroMachine with
            gfx := scrollDown (opN 0x0123) CHIP8_HEIGHT CHIP8_WIDTH
              zeroMachine.gfx,
            draw_flag := true, PC := zeroMachine.PC + 2 }))) :=
  ⟨by decide, by decide,
   c6_sys_and_scd 0 0x0123 zeroMachine (by decide) (by decide) (by decide)
     (by decide) (by decide) (by decide) (by decide) (by decide)⟩


/-! ### Claim C7 -/

/-- Claim C7: `8XY4` leaves `V[x] = (a+b) & 0xFF` and `VF = carry`, with the
flag written last — so when `x = F` the final `VF` is the carry, not the
sum — and every flag-producing ALU operation (`8XY1/2/3/4/5/6/7/E`) leaves
`VF` equal to its flag. -/
theorem c7_alu_flags (V : Nat → Nat) (x y : Nat) :
    (CPU.alu x y 4 V 0xF = if V x + V y > 255 then 1 else 0) ∧
    (x ≠ 0xF → CPU.alu x y 4 V x = (V x + V y) &&& 0xFF) ∧
    (CPU.alu x y 1 V 0xF = 0) ∧ (CPU.alu x y 2 V 0xF = 0) ∧
    (CPU.alu x y 3 V 0xF = 0) ∧
    (CPU.alu x y 5 V 0xF = if V x ≥ V y then 1 else 0) ∧
    (CPU.alu x y 6 V 0xF = V x &&& 1) ∧
    (CPU.alu x y 7 V 0xF = if V y ≥ V x then 1 else 0) ∧
    (CPU.alu x y 0xE V 0xF = (V x >>> 7) &&& 1) := by
  refine ⟨rfl, ?_, rfl, rfl, rfl, rfl, rfl, rfl, rfl⟩
  intro hx
  show upd (upd V x ((V x + V y) &&& 0xFF)) 0xF
    (if V x + V y > 255 then 1 else 0) x = (V x + V y) &&& 0xFF
  rw [upd_apply, if_neg hx, upd_apply, if_pos rfl]

/-- Register file with `V0 = 200`, `V1 = 100` for the C7 witness. -/
def c7V : Nat → Nat := fun j => if j = 0 then 200 else 100

/-- Witness for C7: `200 + 100 = 300 > 255`, so `V0` becomes `44` and `VF`
becomes `1`. -/
theorem c7_witness :
    (0 : Nat) ≠ 0xF ∧ CPU.alu 0 1 4 c7V 0xF = 1 ∧ CPU.alu 0 1 4 c7V 0 = 44 :=
  ⟨by decide, ((c7_alu_flags c7V 0 1).1).trans (by decide),
   ((c7_alu_flags c7V 0 1).2.1 (by decide)).trans (by decide)⟩

/-! ### Claim C8 -/

/-- Claim C8: with the key-wait flag set, `step()` is a perfect no-op
(returning the state unchanged, cycle counter included); `FX0A` sets the
wait flag with `wait_reg = x` without advancing `PC`; and `key_down(k)` for
`k ∈ [0, 15]` on a waiting machine writes `k` into `V[wait_reg]`, clears
the flag, and advances `PC` by exactly 2. -/
theorem c8_key_wait :
    (∀ rnd (s : Machine), s.wait_key = true → CPU.step rnd s = .ok s) ∧
    (∀ x (s : Machine),
      CPU.misc x 0x0A s = .ok { s with wait_key := true, wait_reg := x }) ∧
    (∀ (k : Int) (s : Machine), 0 ≤ k → k < 16 → s.wait_key = true →
      CPU.key_down k s =
        { s with keys := upd s.keys k.toNat 1,
                 V := upd s.V s.wait_reg k.toNat,
                 wait_key := false, PC := s.PC + 2 }) := by
  refine ⟨?_, ?_, ?_⟩
  · intro rnd s hw
    exact step_no_op rnd s (by rw [hw, Bool.or_true])
  · intro x s
    exact misc_0A x s
  · intro k s h0 h1 hw
    unfold CPU.key_down
    rw [if_pos ⟨h0, h1⟩]
    show (if s.wait_key then _ else _) = _
    rw [if_pos hw]

/-- A machine waiting on register 3 for the C8 witness. -/
def kwMachine : Machine :=
  { zeroMachine with wait_key := true, wait_reg := 3 }

/-- Witness for C8. -/
theorem c8_witness :
    kwMachine.wait_key = true ∧ (0 : Int) ≤ 7 ∧ (7 : Int) < 16 ∧
    CPU.step 0 kwMachine = .ok kwMachine ∧
    CPU.misc 2 0x0A zeroMachine =
      .ok { zeroMachine with wait_key := true, wait_reg := 2 } ∧
    CPU.key_down 7 kwMachine =
      { kwMachine with keys := upd kwMachine.keys (7 : Int).toNat 1,
                       V := upd kwMachine.V kwMachine.wait_reg (7 : Int).toNat,
                       wait_key := false, PC := kwMachine.PC + 2 } :=
  ⟨rfl, by decide, by decide,
   c8_key_wait.1 0 kwMachine rfl,
   c8_key_wait.2.1 2 zeroMachine,
   c8_key_wait.2.2 7 kwMachine (by decide) (by decide) rfl⟩

/-! ### Claim C9 -/

/-- Claim C9: for any integer key code outside `[0, 15]`, `key_down` and
`key_up` leave the machine entirely unchanged — the guard `0 <= k < 16`
silently ignores out-of-range codes, even while the key-wait flag is set. -/
theorem c9_key_ignore (s : Machine) (k : Int) (h : k < 0 ∨ 16 ≤ k) :
    CPU.key_down k s = s ∧ CPU.key_up k s = s := by
  have hng : ¬(0 ≤ k ∧ k < 16) := by omega
  constructor
  · unfold CPU.key_down
    rw [if_neg hng]
  · unfold CPU.key_up
    rw [if_neg hng]

/-- Witness for C9 at `k = 16` on a waiting machine. -/
theorem c9_witness :
    ((16 : Int) < 0 ∨ 16 ≤ (16 : Int)) ∧
    (CPU.key_down 16 kwMachine = kwMachine ∧
      CPU.key_up 16 kwMachine = kwMachine) :=
  ⟨by decide, c9_key_ignore kwMachine 16 (by decide)⟩

/-! ### Claim C10 -/

/-- Claim C10: `restore(s)` overwrites exactly the twelve snapshotted
fields (memory, V, I, PC, stack, SP, DT, ST, mode flag, both framebuffers,
cycle counter) plus the draw flag, which it sets to true; `halted`,
`wait_key`, `wait_reg`, `keys`, `loaded`, the ROM name/path and the RPL
slots are untouched — in particular a halted CPU remains halted after
restore, and `step()` stays a no-op on it. -/
theorem c10_restore_frame (sn : Snap) (s : Machine) (rnd : Nat) :
    (CPU.restore sn s).halted = s.halted ∧
    (CPU.restore sn s).wait_key = s.wait_key ∧
    (CPU.restore sn s).wait_reg = s.wait_reg ∧
    (CPU.restore sn s).keys = s.keys ∧
    (CPU.restore sn s).rpl = s.rpl ∧
    (CPU.restore sn s).loaded = s.loaded ∧
    (CPU.restore sn s).rom_name = s.rom_name ∧
    (CPU.restore sn s).rom_path = s.rom_path ∧
    (CPU.restore sn s).mem = sn.mem ∧
    (CPU.restore sn s).V = sn.V ∧
    (CPU.restore sn s).I = sn.I ∧
    (CPU.restore sn s).PC = sn.PC ∧
    (CPU.restore sn s).stack = sn.stack ∧
    (CPU.restore sn s).SP = sn.SP ∧
    (CPU.restore sn s).DT = sn.DT ∧
    (CPU.restore sn s).ST = sn.ST ∧
    (CPU.restore sn s).hires = sn.hires ∧
    (CPU.restore sn s).gfx = sn.gfx ∧
    (CPU.restore sn s).gfx_hi = sn.gfx_hi ∧
    (CPU.restore sn s).cycles = sn.cycles ∧
    (CPU.restore sn s).draw_flag = true ∧
    (s.halted = true →
      CPU.step rnd (CPU.restore sn s) = .ok (CPU.restore sn s)) := by
  refine ⟨rfl, rfl, rfl, rfl, rfl, rfl, rfl, rfl, rfl, rfl, rfl, rfl, rfl,
    rfl, rfl, rfl, rfl, rfl, rfl, rfl, rfl, ?_⟩
  intro hh
  exact step_no_op rnd _ (by
    show (s.halted || s.wait_key) = true
    rw [hh, Bool.true_or])

/-- A halted machine and a snapshot of the zero machine for the C10
witness. -/
def haltedMachine : Machine := { zeroMachine with halted := true }

/-- Witness for C10: restoring a snapshot into a halted machine leaves it
halted and stepping it is a no-op. -/
theorem c10_witness :
    haltedMachine.halted = true ∧
    (CPU.restore (CPU.state zeroMachine) haltedMachine).halted =
      haltedMachine.halted ∧
    CPU.step 0 (CPU.restore (CPU.state zeroMachine) haltedMachine) =
      .ok (CPU.restore (CPU.state zeroMachine) haltedMachine) :=
  ⟨rfl, (c10_restore_frame (CPU.state zeroMachine) haltedMachine 0).1,
   (c10_restore_frame (CPU.state zeroMachine) haltedMachine 0).2.2.2.2.2.2.2.2.2.2.2.2.2.2.2.2.2.2.2.2.2 rfl⟩

end Chip8
